import Mathlib

/-!
Verification development for the screenshots server (src/server/src/server.js and
src/server/src/pages/leave-screenshots/server.js).

The server code is shallowly embedded: every request handler below is a pure
function from a request record to an outcome value; asynchronous storage calls
are represented as explicit action constructors in the outcome, and a JavaScript
exception escaping a handler is represented by an explicit error constructor.
Collaborator modules of the repository that are not part of the given sources
(dbschema and the keygrip signing library, b64.js, users.js, servershot.js,
contentcheck.js, the cookies library) are modelled from the spec where a claim
depends on them; each such definition carries a doc comment saying so.
-/

/-! ### Characters used throughout the embedding -/

def quoteChar : Char := '\x22'

def backslashChar : Char := '\\'

def colonChar : Char := ':'

def semiChar : Char := ';'

def commaChar : Char := ','

def lbraceChar : Char := '\x7b'

def rbraceChar : Char := '\x7d'

def uChar : Char := 'u'

def eqPadChar : Char := '='

def newlineChar : Char := '\n'

def carriageChar : Char := '\r'

def lineSepChar : Char := Char.ofNat 8232

def paraSepChar : Char := Char.ofNat 8233

/-- Model of the JavaScript regex atom `.` without the dotAll flag: any character
except a line terminator. -/
def jsDot (c : Char) : Bool :=
  !(c == newlineChar || c == carriageChar || c == lineSepChar || c == paraSepChar)

/-! ### Hexadecimal digit strings (used by the modelled MAC and by JSON escapes) -/

def hexAlphabet : List Char :=
  (List.range 10).map (fun i => Char.ofNat (48 + i)) ++
    (List.range 6).map (fun i => Char.ofNat (97 + i))

def hexDigitChar (n : Nat) : Char := hexAlphabet.getD n '0'

def hexVal (c : Char) : Option Nat :=
  let i := hexAlphabet.indexOf c
  if i < 16 then some i else none

theorem hexVal_hexDigitChar : ∀ n < 16, hexVal (hexDigitChar n) = some n := by decide

theorem hexDigitChar_mem : ∀ n < 16, hexDigitChar n ∈ hexAlphabet := by decide

/-- Hexadecimal digits with explicit fuel (structural recursion, so that the
kernel can evaluate concrete signatures). -/
def hexDigitsAux : Nat → Nat → List Char
  | 0, n => [hexDigitChar (n % 16)]
  | fuel + 1, n =>
    if n < 16 then [hexDigitChar n] else hexDigitsAux fuel (n / 16) ++ [hexDigitChar (n % 16)]

/-- Hexadecimal digits of a natural number, most significant first. -/
def hexDigits (n : Nat) : List Char := hexDigitsAux n n

theorem hexDigitsAux_ne_nil (fuel n : Nat) : hexDigitsAux fuel n ≠ [] := by
  cases fuel with
  | zero => simp [hexDigitsAux]
  | succ f =>
    rw [hexDigitsAux]
    split_ifs <;> simp

theorem hexDigits_ne_nil (n : Nat) : hexDigits n ≠ [] := hexDigitsAux_ne_nil n n

theorem hexDigitsAux_mem (fuel n : Nat) : ∀ c ∈ hexDigitsAux fuel n, c ∈ hexAlphabet := by
  induction fuel generalizing n with
  | zero =>
    intro c hc
    simp only [hexDigitsAux, List.mem_singleton] at hc
    exact hc ▸ hexDigitChar_mem _ (Nat.mod_lt _ (by omega))
  | succ f ih =>
    intro c hc
    rw [hexDigitsAux] at hc
    split_ifs at hc with h
    · simp only [List.mem_singleton] at hc
      exact hc ▸ hexDigitChar_mem n h
    · rw [List.mem_append] at hc
      rcases hc with hc | hc
      · exact ih (n / 16) c hc
      · simp only [List.mem_singleton] at hc
        exact hc ▸ hexDigitChar_mem (n % 16) (Nat.mod_lt _ (by omega))

theorem hexDigits_mem (n : Nat) : ∀ c ∈ hexDigits n, c ∈ hexAlphabet :=
  hexDigitsAux_mem n n

theorem hexAlphabet_safe :
    ∀ c ∈ hexAlphabet, c ≠ colonChar ∧ c ≠ semiChar ∧ jsDot c = true := by decide

/-! ### Keygrip (modelled from the spec) -/

/-- Modelled from the spec: the keyed MAC used by the keygrip key set held in the
missing module dbschema.js (section 4.1 KeySet: a keyed MAC, signing with the
newest key and verifying against any held key).  The concrete mixing function
stands in for the HMAC; every claim below depends only on it being a
deterministic function of the key and the data whose output is a nonempty
hexadecimal string. -/
def macNat (key data : String) : Nat :=
  (key.toList ++ semiChar :: data.toList).foldl
    (fun h c => (h * 131 + c.toNat + 1) % 1000003) 7

def macChars (key data : String) : List Char := hexDigits (macNat key data)

def macStr (key data : String) : String := ⟨macChars key data⟩

/-- Modelled from the spec: the ordered key list of section 4.1 KeySet (newest
first), as created by the missing dbschema.createKeygrip. -/
structure Keygrip where
  keys : List String
deriving DecidableEq

/-- Modelled from the spec: keygrip signing always uses the newest key. -/
def Keygrip.sign (kg : Keygrip) (data : String) : String :=
  macStr (kg.keys.headD ("")) data

/-- Modelled from the spec: keygrip verification succeeds if the signature
matches under any currently held key. -/
def Keygrip.verify (kg : Keygrip) (data sig : String) : Bool :=
  kg.keys.any (fun k => macStr k data == sig)

theorem verify_sign (k : String) (ks : List String) (data : String) :
    Keygrip.verify ⟨k :: ks⟩ data (Keygrip.sign ⟨k :: ks⟩ data) = true := by
  simp [Keygrip.verify, Keygrip.sign]

/-! ### JSON string literals (spec-modelled serialization layer of b64.js)

The module src/server/src/b64.js is not among the given sources.  Modelled from
the spec: the abTests payload travels as the base64 encoding of the JSON
serialization of the mapping.  The serializer below emits every character either
as a plain printable ASCII character or as a JSON \uXXXX escape (using a
surrogate pair for characters above the basic multilingual plane), so the
serialized text is pure ASCII; the parser is its exact inverse. -/

def hex4 (n : Nat) : List Char :=
  [hexDigitChar (n / 4096 % 16), hexDigitChar (n / 256 % 16),
   hexDigitChar (n / 16 % 16), hexDigitChar (n % 16)]

def escChar (c : Char) : List Char :=
  let n := c.toNat
  if c = quoteChar then [backslashChar, quoteChar]
  else if c = backslashChar then [backslashChar, backslashChar]
  else if 32 ≤ n ∧ n ≤ 126 then [c]
  else if n ≤ 65535 then backslashChar :: uChar :: hex4 n
  else backslashChar :: uChar :: hex4 (55296 + (n - 65536) / 1024) ++
       backslashChar :: uChar :: hex4 (56320 + (n - 65536) % 1024)

def readHex4 (c1 c2 c3 c4 : Char) : Option Nat :=
  match hexVal c1, hexVal c2, hexVal c3, hexVal c4 with
  | some v1, some v2, some v3, some v4 => some (v1 * 4096 + v2 * 256 + v3 * 16 + v4)
  | _, _, _, _ => none

def consFst (c : Char) (p : List Char × List Char) : List Char × List Char :=
  (c :: p.1, p.2)

theorem readHex4_hex4 (n : Nat) (h : n < 65536) :
    readHex4 (hexDigitChar (n / 4096 % 16)) (hexDigitChar (n / 256 % 16))
      (hexDigitChar (n / 16 % 16)) (hexDigitChar (n % 16)) = some n := by
  rw [readHex4]
  rw [hexVal_hexDigitChar _ (Nat.mod_lt _ (by omega)),
      hexVal_hexDigitChar _ (Nat.mod_lt _ (by omega)),
      hexVal_hexDigitChar _ (Nat.mod_lt _ (by omega)),
      hexVal_hexDigitChar _ (Nat.mod_lt _ (by omega))]
  simp only [Option.some.injEq]
  omega

theorem char_toNat_valid (c : Char) :
    c.toNat < 55296 ∨ (57343 < c.toNat ∧ c.toNat < 1114112) := by
  have h := c.valid
  simp [UInt32.isValidChar, Nat.isValidChar, Char.toNat] at h
  exact h

/-- Decode one escape sequence (the input starts right after the backslash),
returning the decoded character and the remaining input. -/
def decodeEsc (l : List Char) : Option (Char × List Char) :=
  match l with
  | [] => none
  | e :: rest2 =>
    if e = quoteChar then some (quoteChar, rest2)
    else if e = backslashChar then some (backslashChar, rest2)
    else if e = uChar then
      match rest2 with
      | c1 :: c2 :: c3 :: c4 :: rest3 =>
        match readHex4 c1 c2 c3 c4 with
        | none => none
        | some m =>
          if 55296 ≤ m ∧ m ≤ 56319 then
            match rest3 with
            | b1 :: u1 :: d1 :: d2 :: d3 :: d4 :: rest4 =>
              if b1 = backslashChar ∧ u1 = uChar then
                match readHex4 d1 d2 d3 d4 with
                | none => none
                | some lo =>
                  if 56320 ≤ lo ∧ lo ≤ 57343 then
                    some (Char.ofNat (65536 + (m - 55296) * 1024 + (lo - 56320)), rest4)
                  else none
              else none
            | _ => none
          else if 56320 ≤ m ∧ m ≤ 57343 then none
          else some (Char.ofNat m, rest3)
      | _ => none
    else none

theorem decodeEsc_length (l : List Char) (p : Char × List Char)
    (h : decodeEsc l = some p) : p.2.length < l.length := by
  match l with
  | [] => simp [decodeEsc] at h
  | e :: rest2 =>
    simp only [decodeEsc] at h
    split_ifs at h with h1 h2 h3
    · cases h; simp
    · cases h; simp
    · match rest2 with
      | [] => simp at h
      | [x1] => simp at h
      | [x1, x2] => simp at h
      | [x1, x2, x3] => simp at h
      | c1 :: c2 :: c3 :: c4 :: rest3 =>
        simp only at h
        match hr : readHex4 c1 c2 c3 c4 with
        | none => rw [hr] at h; simp at h
        | some m =>
          rw [hr] at h
          simp only at h
          split_ifs at h with h4 h5
          · match rest3 with
            | [] => simp at h
            | [y1] => simp at h
            | [y1, y2] => simp at h
            | [y1, y2, y3] => simp at h
            | [y1, y2, y3, y4] => simp at h
            | [y1, y2, y3, y4, y5] => simp at h
            | b1 :: u1 :: d1 :: d2 :: d3 :: d4 :: rest4 =>
              simp only at h
              split_ifs at h with h6
              · match hr2 : readHex4 d1 d2 d3 d4 with
                | none => rw [hr2] at h; simp at h
                | some lo =>
                  rw [hr2] at h
                  simp only at h
                  split_ifs at h with h7
                  · have hp : (Char.ofNat (65536 + (m - 55296) * 1024 + (lo - 56320)), rest4)
                        = p := by simpa using h
                    subst hp
                    simp only [List.length_cons]
                    omega
          · have hp : (Char.ofNat m, rest3) = p := by simpa using h
            subst hp
            simp only [List.length_cons]
            omega

/-- Parse the body of a JSON string literal (the opening quote already
consumed), returning the decoded characters and the input after the closing
quote. -/
def parseStrBody (l : List Char) : Option (List Char × List Char) :=
  match l with
  | [] => none
  | c :: rest =>
    if c = quoteChar then some ([], rest)
    else if c = backslashChar then
      match h : decodeEsc rest with
      | some p => (parseStrBody p.2).map (consFst p.1)
      | none => none
    else (parseStrBody rest).map (consFst c)
termination_by l.length
decreasing_by
  · have hlen := decodeEsc_length _ _ h
    simp only [List.length_cons]
    omega
  · simp

theorem parseStrBody_quote (rest : List Char) :
    parseStrBody (quoteChar :: rest) = some ([], rest) := by
  rw [parseStrBody.eq_def]
  simp only [if_pos rfl, if_true]

theorem parseStrBody_esc (rest : List Char) (p : Char × List Char)
    (h : decodeEsc rest = some p) :
    parseStrBody (backslashChar :: rest) = (parseStrBody p.2).map (consFst p.1) := by
  rw [parseStrBody.eq_def]
  simp only [if_neg (show ¬ backslashChar = quoteChar by decide), if_pos rfl, if_true]
  split
  · next p2 heq => rw [h] at heq; cases heq; rfl
  · next heq => rw [h] at heq; cases heq

theorem parseStrBody_lit (c : Char) (rest : List Char)
    (h1 : ¬ c = quoteChar) (h2 : ¬ c = backslashChar) :
    parseStrBody (c :: rest) = (parseStrBody rest).map (consFst c) := by
  rw [parseStrBody.eq_def]
  simp only [if_neg h1, if_neg h2]

theorem decodeEsc_quote (rest : List Char) :
    decodeEsc (quoteChar :: rest) = some (quoteChar, rest) := by
  rw [decodeEsc.eq_def]
  simp only [if_pos rfl, if_true]

theorem decodeEsc_backslash (rest : List Char) :
    decodeEsc (backslashChar :: rest) = some (backslashChar, rest) := by
  rw [decodeEsc.eq_def]
  simp only [if_neg (show ¬ backslashChar = quoteChar by decide), if_pos rfl, if_true]

theorem decodeEsc_bmp (c1 c2 c3 c4 : Char) (m : Nat) (rest : List Char)
    (hread : readHex4 c1 c2 c3 c4 = some m)
    (hns1 : ¬ (55296 ≤ m ∧ m ≤ 56319)) (hns2 : ¬ (56320 ≤ m ∧ m ≤ 57343)) :
    decodeEsc (uChar :: c1 :: c2 :: c3 :: c4 :: rest) = some (Char.ofNat m, rest) := by
  rw [decodeEsc.eq_def]
  simp only [if_neg (show ¬ uChar = quoteChar by decide),
             if_neg (show ¬ uChar = backslashChar by decide), if_pos rfl, if_true]
  rw [hread]
  simp only [if_neg hns1, if_neg hns2]

theorem decodeEsc_surrogatePair (c1 c2 c3 c4 d1 d2 d3 d4 : Char) (m lo : Nat)
    (rest : List Char)
    (hread : readHex4 c1 c2 c3 c4 = some m) (hm : 55296 ≤ m ∧ m ≤ 56319)
    (hreadLo : readHex4 d1 d2 d3 d4 = some lo) (hlo : 56320 ≤ lo ∧ lo ≤ 57343) :
    decodeEsc (uChar :: c1 :: c2 :: c3 :: c4 ::
        backslashChar :: uChar :: d1 :: d2 :: d3 :: d4 :: rest) =
      some (Char.ofNat (65536 + (m - 55296) * 1024 + (lo - 56320)), rest) := by
  rw [decodeEsc.eq_def]
  simp only [if_neg (show ¬ uChar = quoteChar by decide),
             if_neg (show ¬ uChar = backslashChar by decide), if_pos rfl, if_true]
  rw [hread]
  simp only [if_pos hm,
             if_pos (⟨rfl, rfl⟩ : backslashChar = backslashChar ∧ uChar = uChar)]
  rw [hreadLo]
  simp only [if_pos hlo]
  simp

theorem parseStrBody_escape (l rest : List Char) :
    parseStrBody ((l.map escChar).flatten ++ quoteChar :: rest) = some (l, rest) := by
  induction l with
  | nil => simpa using parseStrBody_quote rest
  | cons c l ih =>
    have hvalid := char_toNat_valid c
    simp only [List.map_cons, List.flatten_cons, List.append_assoc]
    by_cases h1 : c = quoteChar
    · subst h1
      rw [show escChar quoteChar = [backslashChar, quoteChar] by decide]
      simp only [List.cons_append, List.nil_append]
      rw [parseStrBody_esc _ _ (decodeEsc_quote _), ih]
      simp [consFst]
    · by_cases h2 : c = backslashChar
      · subst h2
        rw [show escChar backslashChar = [backslashChar, backslashChar] by decide]
        simp only [List.cons_append, List.nil_append]
        rw [parseStrBody_esc _ _ (decodeEsc_backslash _), ih]
        simp [consFst]
      · by_cases h3 : 32 ≤ c.toNat ∧ c.toNat ≤ 126
        · rw [escChar]
          simp only [if_neg h1, if_neg h2, if_pos h3]
          simp only [List.cons_append, List.nil_append]
          rw [parseStrBody_lit c _ h1 h2, ih]
          simp [consFst]
        · by_cases h4 : c.toNat ≤ 65535
          · rw [escChar]
            simp only [if_neg h1, if_neg h2, if_neg h3, if_pos h4]
            rw [hex4]
            simp only [List.cons_append, List.nil_append]
            rw [parseStrBody_esc _ _
                  (decodeEsc_bmp _ _ _ _ c.toNat _ (readHex4_hex4 c.toNat (by omega))
                    (by omega) (by omega)), ih]
            simp [consFst, Char.ofNat_toNat]
          · rw [escChar]
            simp only [if_neg h1, if_neg h2, if_neg h3, if_neg h4]
            rw [hex4, hex4]
            simp only [List.cons_append, List.nil_append, List.append_assoc]
            rw [parseStrBody_esc _ _
                  (decodeEsc_surrogatePair _ _ _ _ _ _ _ _
                    (55296 + (c.toNat - 65536) / 1024) (56320 + (c.toNat - 65536) % 1024) _
                    (readHex4_hex4 _ (by omega)) (by omega)
                    (readHex4_hex4 _ (by omega)) (by omega)), ih]
            have harith : 65536 + (55296 + (c.toNat - 65536) / 1024 - 55296) * 1024 +
                (56320 + (c.toNat - 65536) % 1024 - 56320) = c.toNat := by omega
            rw [harith, Char.ofNat_toNat]
            simp [consFst]

theorem hex4_ascii (n : Nat) : ∀ d ∈ hex4 n, d.toNat < 128 := by
  intro d hd
  have hhex : ∀ x ∈ hexAlphabet, Char.toNat x < 128 := by decide
  rw [hex4] at hd
  simp only [List.mem_cons, List.not_mem_nil, or_false] at hd
  rcases hd with hd | hd | hd | hd <;>
    exact hd ▸ hhex _ (hexDigitChar_mem _ (Nat.mod_lt _ (by omega)))

theorem escChar_ascii (c : Char) : ∀ d ∈ escChar c, d.toNat < 128 := by
  intro d hd
  rw [escChar] at hd
  split_ifs at hd with h1 h2 h3 h4
  · simp only [List.mem_cons, List.not_mem_nil, or_false] at hd
    rcases hd with hd | hd <;> (subst hd; decide)
  · simp only [List.mem_cons, List.not_mem_nil, or_false] at hd
    rcases hd with hd | hd <;> (subst hd; decide)
  · simp only [List.mem_singleton] at hd
    subst hd; omega
  · simp only [List.mem_cons] at hd
    rcases hd with hd | hd | hd
    · subst hd; decide
    · subst hd; decide
    · exact hex4_ascii _ d hd
  · simp only [List.cons_append, List.mem_cons, List.mem_append] at hd
    rcases hd with hd | hd | hd
    · subst hd; decide
    · subst hd; decide
    · rcases hd with hd | hd | hd
      · exact hex4_ascii _ d hd
      · subst hd; decide
      · rcases hd with hd | hd
        · subst hd; decide
        · exact hex4_ascii _ d hd


/-! ### Flat JSON objects (string to string mappings, the shape of abTests) -/

def strLit (s : String) : List Char :=
  quoteChar :: (s.toList.map escChar).flatten ++ [quoteChar]

def pairLit (kv : String × String) : List Char :=
  strLit kv.1 ++ colonChar :: strLit kv.2

def flatObjChars : List (String × String) → List Char
  | [] => []
  | [kv] => pairLit kv
  | kv :: rest => pairLit kv ++ commaChar :: flatObjChars rest

/-- Modelled from the spec: the JSON serialization of the abTests mapping
performed inside the missing module b64.js (a JSON object whose keys and values
are strings). -/
def jsonStringifyFlat (m : List (String × String)) : List Char :=
  lbraceChar :: flatObjChars m ++ [rbraceChar]

/-- Parse one key-value pair of the form quoted key, colon, quoted value,
returning the pair and the remaining input. -/
def parsePairHead (l : List Char) : Option ((String × String) × List Char) :=
  match l with
  | [] => none
  | c :: rest =>
    if c = quoteChar then
      match parseStrBody rest with
      | none => none
      | some (k, r1) =>
        match r1 with
        | [] => none
        | d :: r2 =>
          if d = colonChar then
            match r2 with
            | [] => none
            | e :: r3 =>
              if e = quoteChar then
                match parseStrBody r3 with
                | none => none
                | some (v, r4) => some ((⟨k⟩, ⟨v⟩), r4)
              else none
          else none
    else none

def parsePairsAux : Nat → List Char → Option (List (String × String) × List Char)
  | 0, _ => none
  | fuel + 1, l =>
    match parsePairHead l with
    | none => none
    | some (kv, r4) =>
      match r4 with
      | [] => none
      | f :: r5 =>
        if f = commaChar then (parsePairsAux fuel r5).map (fun q => (kv :: q.1, q.2))
        else if f = rbraceChar then some ([kv], r5)
        else none

/-- Modelled from the spec: the JSON.parse inside the missing module b64.js,
restricted to the flat string-to-string objects produced by the serializer. -/
def jsonParseFlat (l : List Char) : Option (List (String × String)) :=
  match l with
  | [] => none
  | c :: rest =>
    if c = lbraceChar then
      match rest with
      | [] => none
      | d :: rest2 =>
        if d = rbraceChar then (if rest2 = [] then some [] else none)
        else
          match parsePairsAux rest.length rest with
          | some (m, []) => some m
          | _ => none
    else none

theorem string_mk_toList (s : String) : (⟨s.toList⟩ : String) = s := rfl

theorem parsePairHead_pairLit (kv : String × String) (rest : List Char) :
    parsePairHead (pairLit kv ++ rest) = some (kv, rest) := by
  obtain ⟨k, v⟩ := kv
  show parsePairHead ((strLit k ++ colonChar :: strLit v) ++ rest) = _
  rw [strLit, strLit]
  simp only [List.cons_append, List.append_assoc, List.nil_append, List.singleton_append]
  rw [parsePairHead.eq_def]
  simp only [if_pos rfl, if_true]
  rw [parseStrBody_escape]
  simp only [if_pos rfl, if_true]
  rw [parseStrBody_escape]
  simp [string_mk_toList]

theorem parsePairsAux_comma (fuel : Nat) (l : List Char) (kv : String × String)
    (r5 : List Char) (h : parsePairHead l = some (kv, commaChar :: r5)) :
    parsePairsAux (fuel + 1) l = (parsePairsAux fuel r5).map (fun q => (kv :: q.1, q.2)) := by
  rw [parsePairsAux, h]
  simp only [if_pos rfl, if_true]

theorem parsePairsAux_rbrace (fuel : Nat) (l : List Char) (kv : String × String)
    (r5 : List Char) (h : parsePairHead l = some (kv, rbraceChar :: r5)) :
    parsePairsAux (fuel + 1) l = some ([kv], r5) := by
  rw [parsePairsAux, h]
  simp only [if_neg (show ¬ rbraceChar = commaChar by decide), if_pos rfl, if_true]

theorem flatObjChars_cons (kv x : String × String) (xs : List (String × String)) :
    flatObjChars (kv :: x :: xs) = pairLit kv ++ commaChar :: flatObjChars (x :: xs) := rfl

theorem parsePairsAux_flatObj (m : List (String × String)) (hne : m ≠ [])
    (fuel : Nat) (hfuel : m.length ≤ fuel) (rest : List Char) :
    parsePairsAux fuel (flatObjChars m ++ rbraceChar :: rest) = some (m, rest) := by
  induction m generalizing fuel rest with
  | nil => exact absurd rfl hne
  | cons kv m ih =>
    obtain ⟨f, rfl⟩ : ∃ f, fuel = f + 1 := by
      cases fuel with
      | zero => simp at hfuel
      | succ f => exact ⟨f, rfl⟩
    match m with
    | [] =>
      rw [show flatObjChars [kv] = pairLit kv from rfl]
      exact parsePairsAux_rbrace f _ kv rest
        (by rw [show pairLit kv ++ rbraceChar :: rest = pairLit kv ++ (rbraceChar :: rest) from rfl,
                parsePairHead_pairLit])
    | x :: xs =>
      rw [flatObjChars_cons]
      have hhead : parsePairHead
          ((pairLit kv ++ commaChar :: flatObjChars (x :: xs)) ++ rbraceChar :: rest) =
          some (kv, commaChar :: (flatObjChars (x :: xs) ++ rbraceChar :: rest)) := by
        rw [show (pairLit kv ++ commaChar :: flatObjChars (x :: xs)) ++ rbraceChar :: rest =
            pairLit kv ++ commaChar :: (flatObjChars (x :: xs) ++ rbraceChar :: rest) by simp]
        exact parsePairHead_pairLit kv _
      rw [parsePairsAux_comma f _ kv _ hhead]
      rw [ih (by simp) f (by simpa using Nat.lt_succ_iff.mp hfuel) rest]
      rfl

theorem strLit_head (s : String) : ∃ t, strLit s = quoteChar :: t := ⟨_, rfl⟩

theorem pairLit_head (kv : String × String) : ∃ t, pairLit kv = quoteChar :: t := by
  obtain ⟨t, ht⟩ := strLit_head kv.1
  exact ⟨t ++ colonChar :: strLit kv.2, by rw [pairLit, ht]; rfl⟩

theorem flatObjChars_head (kv : String × String) (m : List (String × String)) :
    ∃ t, flatObjChars (kv :: m) = quoteChar :: t := by
  obtain ⟨t, ht⟩ := pairLit_head kv
  match m with
  | [] => exact ⟨t, by rw [show flatObjChars [kv] = pairLit kv from rfl, ht]⟩
  | x :: xs =>
    exact ⟨t ++ commaChar :: flatObjChars (x :: xs), by rw [flatObjChars_cons, ht]; rfl⟩

theorem pairLit_length_pos (kv : String × String) : 0 < (pairLit kv).length := by
  obtain ⟨t, ht⟩ := pairLit_head kv
  rw [ht]
  simp

theorem flatObjChars_length_ge (m : List (String × String)) :
    m.length ≤ (flatObjChars m).length := by
  induction m with
  | nil => simp [flatObjChars]
  | cons kv m ih =>
    match m with
    | [] =>
      rw [show flatObjChars [kv] = pairLit kv from rfl]
      have := pairLit_length_pos kv
      simp only [List.length_cons, List.length_nil]
      omega
    | x :: xs =>
      rw [flatObjChars_cons]
      have h1 := pairLit_length_pos kv
      simp only [List.length_append, List.length_cons]
      simp only [List.length_cons] at ih
      omega

/-- Round trip of the flat JSON object codec. -/
theorem jsonParseFlat_stringify (m : List (String × String)) :
    jsonParseFlat (jsonStringifyFlat m) = some m := by
  match m with
  | [] => rfl
  | kv :: m =>
    obtain ⟨t, ht⟩ := flatObjChars_head kv m
    rw [jsonStringifyFlat, ht]
    simp only [List.cons_append]
    rw [jsonParseFlat.eq_def]
    simp only [if_pos rfl, if_true, if_neg (show ¬ quoteChar = rbraceChar by decide)]
    rw [show quoteChar :: (t ++ [rbraceChar]) = flatObjChars (kv :: m) ++ rbraceChar :: [] by
      rw [ht]; simp]
    rw [parsePairsAux_flatObj (kv :: m) (by simp) _
        (by
          have h1 := flatObjChars_length_ge (kv :: m)
          simp only [List.length_append, List.length_cons, List.length_nil] at h1 ⊢
          omega) []]

/-! ### Base64 (spec-modelled byte encoding layer of b64.js) -/

def b64Alphabet : List Char :=
  (List.range 26).map (fun i => Char.ofNat (65 + i)) ++
    (List.range 26).map (fun i => Char.ofNat (97 + i)) ++
    (List.range 10).map (fun i => Char.ofNat (48 + i)) ++ ['+', '/']

def b64Chr (n : Nat) : Char := b64Alphabet.getD n 'A'

def b64Val (c : Char) : Option Nat :=
  let i := b64Alphabet.indexOf c
  if i < 64 then some i else none

/-- Modelled from the spec: the base64 encoder of byte triples used by the
missing module b64.js, padding with equals signs. -/
def b64EncodeBytes : List Nat → List Char
  | [] => []
  | [a] => [b64Chr (a / 4), b64Chr (a % 4 * 16), eqPadChar, eqPadChar]
  | [a, b] => [b64Chr (a / 4), b64Chr (a % 4 * 16 + b / 16), b64Chr (b % 16 * 4), eqPadChar]
  | a :: b :: c :: rest =>
    b64Chr (a / 4) :: b64Chr (a % 4 * 16 + b / 16) :: b64Chr (b % 16 * 4 + c / 64) ::
      b64Chr (c % 64) :: b64EncodeBytes rest

/-- Decode one base64 quad into one, two or three bytes; the flag says whether
this quad is the last one, which is the only place padding is allowed. -/
def b64Quad (c1 c2 c3 c4 : Char) (last : Bool) : Option (List Nat) :=
  match b64Val c1, b64Val c2 with
  | some v1, some v2 =>
    if c3 = eqPadChar then
      if c4 = eqPadChar ∧ last = true then some [v1 * 4 + v2 / 16] else none
    else
      match b64Val c3 with
      | some v3 =>
        if c4 = eqPadChar then
          if last = true then some [v1 * 4 + v2 / 16, v2 % 16 * 16 + v3 / 4] else none
        else
          match b64Val c4 with
          | some v4 => some [v1 * 4 + v2 / 16, v2 % 16 * 16 + v3 / 4, v3 % 4 * 64 + v4]
          | none => none
      | none => none
  | _, _ => none

/-- Modelled from the spec: the base64 decoder of the missing module b64.js. -/
def b64DecodeBytes : List Char → Option (List Nat)
  | [] => some []
  | c1 :: c2 :: c3 :: c4 :: rest =>
    match b64Quad c1 c2 c3 c4 rest.isEmpty with
    | none => none
    | some bs => (b64DecodeBytes rest).map (fun t => bs ++ t)
  | _ => none

theorem b64Val_b64Chr : ∀ v < 64, b64Val (b64Chr v) = some v := by decide

theorem b64Chr_ne_pad : ∀ v < 64, b64Chr v ≠ eqPadChar := by decide

theorem b64Chr_mem : ∀ v < 64, b64Chr v ∈ b64Alphabet := by decide

theorem b64Alphabet_safe :
    ∀ c ∈ b64Alphabet, c ≠ colonChar ∧ c ≠ semiChar ∧ jsDot c = true := by decide

theorem b64DecodeBytes_cons (c1 c2 c3 c4 : Char) (rest : List Char) :
    b64DecodeBytes (c1 :: c2 :: c3 :: c4 :: rest) =
      match b64Quad c1 c2 c3 c4 rest.isEmpty with
      | none => none
      | some bs => (b64DecodeBytes rest).map (fun t => bs ++ t) := by
  rw [b64DecodeBytes.eq_def]

theorem b64Quad_pad2 (a : Nat) (ha : a < 256) (last : Bool) :
    b64Quad (b64Chr (a / 4)) (b64Chr (a % 4 * 16)) eqPadChar eqPadChar last =
      if last = true then some [a] else none := by
  rw [b64Quad.eq_def]
  rw [b64Val_b64Chr _ (by omega), b64Val_b64Chr _ (by omega)]
  simp only [if_pos rfl, if_true, and_true, true_and]
  by_cases hl : last = true
  · simp only [if_pos hl]
    congr 1
    simp only [List.cons.injEq, and_true]
    omega
  · simp only [if_neg hl]

theorem b64Quad_pad1 (a b : Nat) (ha : a < 256) (hbb : b < 256) (last : Bool) :
    b64Quad (b64Chr (a / 4)) (b64Chr (a % 4 * 16 + b / 16)) (b64Chr (b % 16 * 4))
      eqPadChar last = if last = true then some [a, b] else none := by
  rw [b64Quad.eq_def]
  rw [b64Val_b64Chr _ (by omega), b64Val_b64Chr _ (by omega)]
  simp only [if_neg (b64Chr_ne_pad (b % 16 * 4) (by omega))]
  rw [b64Val_b64Chr _ (by omega)]
  simp only [if_pos rfl, if_true]
  by_cases hl : last = true
  · simp only [if_pos hl]
    congr 1
    simp only [List.cons.injEq, and_true]
    omega
  · simp only [if_neg hl]

theorem b64Quad_full (a b c : Nat) (ha : a < 256) (hbb : b < 256) (hc : c < 256)
    (last : Bool) :
    b64Quad (b64Chr (a / 4)) (b64Chr (a % 4 * 16 + b / 16)) (b64Chr (b % 16 * 4 + c / 64))
      (b64Chr (c % 64)) last = some [a, b, c] := by
  rw [b64Quad.eq_def]
  rw [b64Val_b64Chr _ (by omega), b64Val_b64Chr _ (by omega)]
  simp only [if_neg (b64Chr_ne_pad (b % 16 * 4 + c / 64) (by omega))]
  rw [b64Val_b64Chr _ (by omega)]
  simp only [if_neg (b64Chr_ne_pad (c % 64) (by omega))]
  rw [b64Val_b64Chr _ (by omega)]
  simp only [Option.some.injEq, List.cons.injEq, and_true]
  omega

theorem b64_roundtrip (bytes : List Nat) (hb : ∀ x ∈ bytes, x < 256) :
    b64DecodeBytes (b64EncodeBytes bytes) = some bytes := by
  match bytes with
  | [] => decide
  | [a] =>
    have ha : a < 256 := hb a (by simp)
    rw [show b64EncodeBytes [a] =
        [b64Chr (a / 4), b64Chr (a % 4 * 16), eqPadChar, eqPadChar] by
      rw [b64EncodeBytes]]
    rw [b64DecodeBytes_cons]
    rw [show (([] : List Char)).isEmpty = true from rfl]
    rw [b64Quad_pad2 a ha true]
    simp [b64DecodeBytes]
  | [a, b] =>
    have ha : a < 256 := hb a (by simp)
    have hbb : b < 256 := hb b (by simp)
    rw [show b64EncodeBytes [a, b] =
        [b64Chr (a / 4), b64Chr (a % 4 * 16 + b / 16), b64Chr (b % 16 * 4), eqPadChar] by
      rw [b64EncodeBytes]]
    rw [b64DecodeBytes_cons]
    rw [show (([] : List Char)).isEmpty = true from rfl]
    rw [b64Quad_pad1 a b ha hbb true]
    simp [b64DecodeBytes]
  | a :: b :: c :: rest =>
    have ha : a < 256 := hb a (by simp)
    have hbb : b < 256 := hb b (by simp)
    have hc : c < 256 := hb c (by simp)
    have ih := b64_roundtrip rest (fun x hx => hb x (by simp [hx]))
    rw [show b64EncodeBytes (a :: b :: c :: rest) =
        b64Chr (a / 4) :: b64Chr (a % 4 * 16 + b / 16) :: b64Chr (b % 16 * 4 + c / 64) ::
          b64Chr (c % 64) :: b64EncodeBytes rest by rw [b64EncodeBytes]]
    rw [b64DecodeBytes_cons]
    rw [b64Quad_full a b c ha hbb hc]
    rw [ih]
    rfl

theorem b64EncodeBytes_mem (bytes : List Nat) (hb : ∀ x ∈ bytes, x < 256) :
    ∀ ch ∈ b64EncodeBytes bytes, ch ∈ b64Alphabet ∨ ch = eqPadChar := by
  match bytes with
  | [] => intro ch hch; cases hch
  | [a] =>
    have ha : a < 256 := hb a (by simp)
    intro ch hch
    rw [show b64EncodeBytes [a] =
        [b64Chr (a / 4), b64Chr (a % 4 * 16), eqPadChar, eqPadChar] by
      rw [b64EncodeBytes]] at hch
    simp only [List.mem_cons, List.not_mem_nil, or_false] at hch
    rcases hch with h | h | h | h
    · exact Or.inl (h ▸ b64Chr_mem _ (by omega))
    · exact Or.inl (h ▸ b64Chr_mem _ (by omega))
    · exact Or.inr h
    · exact Or.inr h
  | [a, b] =>
    have ha : a < 256 := hb a (by simp)
    have hbb : b < 256 := hb b (by simp)
    intro ch hch
    rw [show b64EncodeBytes [a, b] =
        [b64Chr (a / 4), b64Chr (a % 4 * 16 + b / 16), b64Chr (b % 16 * 4), eqPadChar] by
      rw [b64EncodeBytes]] at hch
    simp only [List.mem_cons, List.not_mem_nil, or_false] at hch
    rcases hch with h | h | h | h
    · exact Or.inl (h ▸ b64Chr_mem _ (by omega))
    · exact Or.inl (h ▸ b64Chr_mem _ (by omega))
    · exact Or.inl (h ▸ b64Chr_mem _ (by omega))
    · exact Or.inr h
  | a :: b :: c :: rest =>
    have ha : a < 256 := hb a (by simp)
    have hbb : b < 256 := hb b (by simp)
    have hc : c < 256 := hb c (by simp)
    have ih := b64EncodeBytes_mem rest (fun x hx => hb x (by simp [hx]))
    intro ch hch
    rw [show b64EncodeBytes (a :: b :: c :: rest) =
        b64Chr (a / 4) :: b64Chr (a % 4 * 16 + b / 16) :: b64Chr (b % 16 * 4 + c / 64) ::
          b64Chr (c % 64) :: b64EncodeBytes rest by rw [b64EncodeBytes]] at hch
    simp only [List.mem_cons] at hch
    rcases hch with h | h | h | h | h
    · exact Or.inl (h ▸ b64Chr_mem _ (by omega))
    · exact Or.inl (h ▸ b64Chr_mem _ (by omega))
    · exact Or.inl (h ▸ b64Chr_mem _ (by omega))
    · exact Or.inl (h ▸ b64Chr_mem _ (by omega))
    · exact ih ch h

theorem b64EncodeBytes_ne_nil (bytes : List Nat) (h : bytes ≠ []) :
    b64EncodeBytes bytes ≠ [] := by
  match bytes with
  | [] => exact absurd rfl h
  | [a] => simp [b64EncodeBytes]
  | [a, b] => simp [b64EncodeBytes]
  | a :: b :: c :: rest => simp [b64EncodeBytes]

/-! ### The b64EncodeJson and b64DecodeJson interface of the missing b64.js -/

theorem flatObjChars_single (kv : String × String) : flatObjChars [kv] = pairLit kv := by
  rw [flatObjChars]

theorem strLit_ascii (s : String) : ∀ c ∈ strLit s, c.toNat < 128 := by
  intro c hc
  rw [strLit] at hc
  simp only [List.cons_append, List.mem_cons, List.mem_append, List.mem_singleton,
             List.not_mem_nil, or_false, or_assoc] at hc
  rcases hc with h | h | h
  · subst h; decide
  · rw [List.mem_flatten] at h
    obtain ⟨l, hl, hcl⟩ := h
    rw [List.mem_map] at hl
    obtain ⟨d, _, rfl⟩ := hl
    exact escChar_ascii d c hcl
  · subst h; decide

theorem pairLit_ascii (kv : String × String) : ∀ c ∈ pairLit kv, c.toNat < 128 := by
  intro c hc
  rw [pairLit] at hc
  simp only [List.mem_append, List.mem_cons] at hc
  rcases hc with h | h | h
  · exact strLit_ascii _ c h
  · subst h; decide
  · exact strLit_ascii _ c h

theorem flatObjChars_ascii (m : List (String × String)) :
    ∀ c ∈ flatObjChars m, c.toNat < 128 := by
  induction m with
  | nil => intro c hc; cases hc
  | cons kv m ih =>
    match m with
    | [] =>
      intro c hc
      rw [flatObjChars_single] at hc
      exact pairLit_ascii kv c hc
    | x :: xs =>
      intro c hc
      rw [flatObjChars_cons] at hc
      simp only [List.mem_append, List.mem_cons] at hc
      rcases hc with h | h | h
      · exact pairLit_ascii kv c h
      · subst h; decide
      · exact ih c h

theorem jsonStringifyFlat_ascii (m : List (String × String)) :
    ∀ c ∈ jsonStringifyFlat m, c.toNat < 128 := by
  intro c hc
  rw [jsonStringifyFlat] at hc
  simp only [List.cons_append, List.mem_cons, List.mem_append, List.mem_singleton,
             List.not_mem_nil, or_false, or_assoc] at hc
  rcases hc with h | h | h
  · subst h; decide
  · exact flatObjChars_ascii m c h
  · subst h; decide

theorem jsonStringifyFlat_bytes_lt (m : List (String × String)) :
    ∀ x ∈ (jsonStringifyFlat m).map Char.toNat, x < 256 := by
  intro x hx
  rw [List.mem_map] at hx
  obtain ⟨c, hc, rfl⟩ := hx
  have := jsonStringifyFlat_ascii m c hc
  omega

/-- Modelled from the spec: b64EncodeJson from the missing module b64.js, the
base64 encoding of the bytes of the JSON serialization of the mapping (the
serialization is pure ASCII, so its bytes are the character codes). -/
def b64EncodeJson (m : List (String × String)) : String :=
  ⟨b64EncodeBytes ((jsonStringifyFlat m).map Char.toNat)⟩

/-- JavaScript exception value escaping a handler. -/
inductive JsError where
  | error (msg : String)
deriving DecidableEq

def b64DecodeJsonOpt (s : String) : Option (List (String × String)) :=
  match b64DecodeBytes s.toList with
  | none => none
  | some bytes => jsonParseFlat (bytes.map Char.ofNat)

/-- Modelled from the spec: b64DecodeJson from the missing module b64.js; an
undecodable payload makes JSON.parse throw, modelled as an error value. -/
def b64DecodeJson (s : String) : Except JsError (List (String × String)) :=
  match b64DecodeJsonOpt s with
  | some m => Except.ok m
  | none => Except.error (JsError.error ("b64DecodeJson: parse error"))

theorem b64DecodeJsonOpt_encode (m : List (String × String)) :
    b64DecodeJsonOpt (b64EncodeJson m) = some m := by
  rw [b64DecodeJsonOpt, b64EncodeJson]
  rw [show (⟨b64EncodeBytes ((jsonStringifyFlat m).map Char.toNat)⟩ : String).toList =
      b64EncodeBytes ((jsonStringifyFlat m).map Char.toNat) from rfl]
  rw [b64_roundtrip _ (jsonStringifyFlat_bytes_lt m)]
  have hmap : ((jsonStringifyFlat m).map Char.toNat).map Char.ofNat = jsonStringifyFlat m := by
    rw [List.map_map]
    simp only [Function.comp_def, Char.ofNat_toNat, List.map_id']
  simp only [hmap, jsonParseFlat_stringify]

/-- Round trip of the modelled b64.js pair. -/
theorem b64DecodeJson_encode (m : List (String × String)) :
    b64DecodeJson (b64EncodeJson m) = Except.ok m := by
  rw [b64DecodeJson, b64DecodeJsonOpt_encode]

theorem b64EncodeJson_safe (m : List (String × String)) :
    ∀ ch ∈ (b64EncodeJson m).toList, ch ≠ colonChar ∧ ch ≠ semiChar ∧ jsDot ch = true := by
  intro ch hch
  have hm := b64EncodeBytes_mem ((jsonStringifyFlat m).map Char.toNat)
    (jsonStringifyFlat_bytes_lt m) ch hch
  rcases hm with h | h
  · exact b64Alphabet_safe ch h
  · subst h; decide

theorem b64EncodeJson_ne_nil (m : List (String × String)) :
    (b64EncodeJson m).toList ≠ [] := by
  apply b64EncodeBytes_ne_nil
  intro hx
  have hlen := congrArg List.length hx
  simp [jsonStringifyFlat] at hlen

/-! ### The auth header codec (server.js lines 264 to 283 and 565 to 584) -/

structure AuthInfo where
  deviceId : Option String
  abTests : Option (List (String × String))
deriving DecidableEq

def AuthInfo.empty : AuthInfo := ⟨none, none⟩

def splitFirst (sep : Char) : List Char → Option (List Char × List Char)
  | [] => none
  | c :: rest =>
    if c = sep then some ([], rest)
    else (splitFirst sep rest).map (fun p => (c :: p.1, p.2))

def stripLit : List Char → List Char → Option (List Char)
  | [], rest => some rest
  | _ :: _, [] => none
  | l :: lit, c :: rest => if c = l then stripLit lit rest else none

def abTestsLit : List Char := ['a', 'b', 'T', 'e', 's', 't', 's', '=']

/-- Model of the anchored JavaScript regex in decodeAuthHeader (server.js 268).
Every capture group of the regex is forced, so the match is deterministic:
group 1 runs to the first colon, group 2 to the first following semicolon, the
literal abTests= follows, group 3 runs to the next colon and group 4 takes the
rest of the input, each of whose characters must be matched by the dot. -/
def matchAuthHeader (header : String) : Option (String × String × String × String) :=
  (splitFirst colonChar header.toList).bind (fun p1 =>
    if p1.1 = [] then none
    else (splitFirst semiChar p1.2).bind (fun p2 =>
      if p2.1 = [] then none
      else (stripLit abTestsLit p2.2).bind (fun r3 =>
        (splitFirst colonChar r3).bind (fun p3 =>
          if p3.1 = [] then none
          else if p3.2.all jsDot then some (⟨p1.1⟩, ⟨p2.1⟩, ⟨p3.1⟩, ⟨p3.2⟩)
          else none))))

/-- Embedding of decodeAuthHeader (server.js 264 to 283): a header that does not
match the regex, or whose deviceId or abTests signature fails keygrip
verification, yields the empty object; only then is the base64 JSON payload
decoded. -/
def decodeAuthHeader (kg : Keygrip) (header : String) : Except JsError AuthInfo :=
  match matchAuthHeader header with
  | none => Except.ok AuthInfo.empty
  | some (deviceId, deviceIdSig, abTestsEncoded, abTestsEncodedSig) =>
    if kg.verify deviceId deviceIdSig && kg.verify abTestsEncoded abTestsEncodedSig then
      match b64DecodeJson abTestsEncoded with
      | Except.ok abTests => Except.ok ⟨some deviceId, some abTests⟩
      | Except.error e => Except.error e
    else Except.ok AuthInfo.empty

/-- Model of the identity pattern regex in sendAuthInfo (server.js 566). -/
def matchesIdPattern (s : String) : Bool :=
  !s.toList.isEmpty && s.toList.all (fun c => c.isAlphanum || c == '_' || c == '-')

/-- The auth header string constructed by sendAuthInfo (server.js 575). -/
def authHeaderString (kg : Keygrip) (deviceId : String)
    (userAbTests : List (String × String)) : String :=
  deviceId ++ (":") ++ kg.sign deviceId ++ (";abTests=") ++ b64EncodeJson userAbTests ++
    (":") ++ kg.sign (b64EncodeJson userAbTests)

structure AuthResponse where
  cookieUser : String
  cookieAbTests : String
  authHeader : String
  status : Nat
deriving DecidableEq

/-- Embedding of sendAuthInfo (server.js 565 to 584): throws on a deviceId that
does not match the identity pattern; otherwise sets the two signed session
cookies and responds 200 with the constructed auth header. -/
def sendAuthInfo (kg : Keygrip) (deviceId : String)
    (userAbTests : List (String × String)) : Except JsError AuthResponse :=
  if matchesIdPattern deviceId = false then Except.error (JsError.error ("Bad deviceId"))
  else Except.ok
    ⟨deviceId, b64EncodeJson userAbTests, authHeaderString kg deviceId userAbTests, 200⟩

theorem splitFirst_append (sep : Char) (a b : List Char) (h : sep ∉ a) :
    splitFirst sep (a ++ sep :: b) = some (a, b) := by
  induction a with
  | nil => simp [splitFirst]
  | cons c a ih =>
    rw [List.cons_append, splitFirst]
    rw [if_neg (by intro hc; exact h (hc ▸ List.mem_cons_self c a))]
    rw [ih (fun hm => h (List.mem_cons_of_mem c hm))]
    rfl

theorem stripLit_append (lit rest : List Char) : stripLit lit (lit ++ rest) = some rest := by
  induction lit with
  | nil => rfl
  | cons l lit ih => rw [List.cons_append, stripLit, if_pos rfl, ih]

theorem matchAuthHeader_build (d s1 e s2 : List Char)
    (hd : d ≠ []) (hdc : colonChar ∉ d)
    (hs1 : s1 ≠ []) (hs1s : semiChar ∉ s1)
    (he : e ≠ []) (hec : colonChar ∉ e)
    (hs2 : s2.all jsDot = true) :
    matchAuthHeader
        ⟨d ++ colonChar :: (s1 ++ semiChar :: (abTestsLit ++ (e ++ colonChar :: s2)))⟩ =
      some (⟨d⟩, ⟨s1⟩, ⟨e⟩, ⟨s2⟩) := by
  rw [matchAuthHeader]
  rw [show (⟨d ++ colonChar :: (s1 ++ semiChar :: (abTestsLit ++ (e ++ colonChar :: s2)))⟩ :
      String).toList =
      d ++ colonChar :: (s1 ++ semiChar :: (abTestsLit ++ (e ++ colonChar :: s2)))
      from rfl]
  rw [splitFirst_append colonChar d _ hdc]
  simp only [Option.some_bind, if_neg hd]
  rw [splitFirst_append semiChar s1 _ hs1s]
  simp only [Option.some_bind, if_neg hs1]
  rw [stripLit_append]
  simp only [Option.some_bind]
  rw [splitFirst_append colonChar e _ hec]
  simp only [Option.some_bind, if_neg he, hs2, if_true]

theorem macChars_ne_nil (k data : String) : macChars k data ≠ [] := hexDigits_ne_nil _

theorem macChars_safe (k data : String) :
    ∀ c ∈ macChars k data, c ≠ colonChar ∧ c ≠ semiChar ∧ jsDot c = true :=
  fun c hc => hexAlphabet_safe c (hexDigits_mem _ c hc)

theorem idPattern_chars (s : String) (h : matchesIdPattern s = true) :
    s.toList ≠ [] ∧ colonChar ∉ s.toList := by
  rw [matchesIdPattern, Bool.and_eq_true] at h
  obtain ⟨h1, h2⟩ := h
  constructor
  · intro hx
    rw [hx] at h1
    simp at h1
  · intro hmem
    rw [List.all_eq_true] at h2
    have hcol := h2 colonChar hmem
    exact absurd hcol (by decide)

theorem toList_append (s t : String) : (s ++ t).toList = s.toList ++ t.toList := by
  simp [String.toList]

theorem sign_head (k : String) (ks : List String) (x : String) :
    Keygrip.sign ⟨k :: ks⟩ x = macStr k x := rfl

theorem matchAuthHeader_authHeaderString (k : String) (ks : List String) (d : String)
    (ab : List (String × String)) (hd : matchesIdPattern d = true) :
    matchAuthHeader (authHeaderString ⟨k :: ks⟩ d ab) =
      some (d, macStr k d, b64EncodeJson ab, macStr k (b64EncodeJson ab)) := by
  obtain ⟨hdne, hdc⟩ := idPattern_chars d hd
  have hlist : (authHeaderString ⟨k :: ks⟩ d ab).toList =
      d.toList ++ colonChar :: (macChars k d ++ semiChar ::
        (abTestsLit ++ (b64EncodeJson ab).toList ++ colonChar ::
          macChars k (b64EncodeJson ab))) := by
    rw [authHeaderString, sign_head, sign_head]
    rw [toList_append, toList_append, toList_append, toList_append, toList_append,
        toList_append]
    rw [show ((":") : String).toList = [colonChar] from rfl]
    rw [show ((";abTests=") : String).toList = semiChar :: abTestsLit from rfl]
    rw [show (macStr k d).toList = macChars k d from rfl]
    rw [show (macStr k (b64EncodeJson ab)).toList = macChars k (b64EncodeJson ab) from rfl]
    simp
  conv_lhs => rw [← string_mk_toList (authHeaderString ⟨k :: ks⟩ d ab), hlist]
  rw [show d.toList ++ colonChar :: (macChars k d ++ semiChar ::
        (abTestsLit ++ (b64EncodeJson ab).toList ++ colonChar ::
          macChars k (b64EncodeJson ab))) =
      d.toList ++ colonChar :: (macChars k d ++ semiChar ::
        (abTestsLit ++ ((b64EncodeJson ab).toList ++ colonChar ::
          macChars k (b64EncodeJson ab)))) by simp]
  rw [matchAuthHeader_build d.toList (macChars k d) ((b64EncodeJson ab).toList)
        (macChars k (b64EncodeJson ab)) hdne hdc
        (macChars_ne_nil k d)
        (fun hm => ((macChars_safe k d semiChar hm).2.1 rfl).elim)
        (b64EncodeJson_ne_nil ab)
        (fun hm => ((b64EncodeJson_safe ab colonChar hm).1 rfl).elim)
        (by
          rw [List.all_eq_true]
          exact fun c hc => (macChars_safe k (b64EncodeJson ab) c hc).2.2)]
  rw [string_mk_toList, string_mk_toList]
  rfl

/-- Round trip of the header credential codec: decoding the header built by
sendAuthInfo recovers exactly the deviceId and the abTests mapping. -/
theorem decodeAuthHeader_roundtrip (k : String) (ks : List String) (d : String)
    (ab : List (String × String)) (hd : matchesIdPattern d = true) :
    decodeAuthHeader ⟨k :: ks⟩ (authHeaderString ⟨k :: ks⟩ d ab) =
      Except.ok ⟨some d, some ab⟩ := by
  rw [decodeAuthHeader, matchAuthHeader_authHeaderString k ks d ab hd]
  have hv1 : Keygrip.verify ⟨k :: ks⟩ d (macStr k d) = true := by
    simp [Keygrip.verify]
  have hv2 : Keygrip.verify ⟨k :: ks⟩ (b64EncodeJson ab) (macStr k (b64EncodeJson ab)) =
      true := by
    simp [Keygrip.verify]
  simp only [hv1, hv2, Bool.and_self, if_true, b64DecodeJson_encode]

/-! ### Authentication middleware (server.js 237 to 262) and magic auth (285 to 293) -/

structure ReqHeaders where
  authHeader : Option String
  magicAuth : Option String
  xDeviceId : Option String
  cookieUser : Option String
  cookieUserSig : Option String
  cookieAbTests : Option String
  cookieAbTestsSig : Option String
deriving DecidableEq

def jsFalsyStr : Option String → Bool
  | none => true
  | some s => s == ("")

/-- Modelled from the spec: the signed cookie read performed by the external
cookies library; the stored signature must verify over name=value under the
keygrip key set (cookie form of the credential, section 4.2). -/
def signedCookieGet (kg : Keygrip) (name : String) (value sig : Option String) :
    Option String :=
  match value, sig with
  | some v, some s => if kg.verify (name ++ ("=") ++ v) s then some v else none
  | _, _ => none

/-- Embedding of the authentication middleware (server.js 237 to 262): the
header form is used when the x-pageshot-auth header is present, the signed
cookie pair otherwise. -/
def credAuthInfo (kg : Keygrip) (req : ReqHeaders) : Except JsError AuthInfo :=
  match req.authHeader with
  | some h => decodeAuthHeader kg h
  | none =>
    let deviceId := signedCookieGet kg ("user") req.cookieUser req.cookieUserSig
    match signedCookieGet kg ("abtests") req.cookieAbTests req.cookieAbTestsSig with
    | some ab =>
      if ab == ("") then Except.ok ⟨deviceId, none⟩
      else match b64DecodeJson ab with
        | Except.ok abTests => Except.ok ⟨deviceId, some abTests⟩
        | Except.error e => Except.error e
    | none => Except.ok ⟨deviceId, none⟩

/-- The deviceId the middleware stores on the request: only a truthy decoded
deviceId is kept (server.js 251 to 252). -/
def credDeviceId (kg : Keygrip) (req : ReqHeaders) : Except JsError (Option String) :=
  (credAuthInfo kg req).map (fun a => if jsFalsyStr a.deviceId then none else a.deviceId)

/-- Embedding of the magic auth middleware (server.js 285 to 293): when the
x-magic-auth header equals one of the server text keys, req.deviceId is
overwritten with the x-device-id header value. -/
def computeDeviceId (kg : Keygrip) (textKeys : List String) (req : ReqHeaders) :
    Except JsError (Option String) :=
  (credDeviceId kg req).map (fun d =>
    match req.magicAuth with
    | some mk => if textKeys.contains mk then req.xDeviceId else d
    | none => d)

/-! ### POST /leave handler (pages/leave-screenshots/server.js 21 to 31) -/

def leave403Body : String := "You must have the addon installed to leave"

inductive LeaveEvent where
  | sent403 (body : String)
  | deleteEverythingForDevice (backend : String) (deviceId : Option String)
  | redirectComplete
deriving DecidableEq

structure LeaveReq where
  deviceId : Option String
  backend : String
deriving DecidableEq

/-- Embedding of the POST /leave handler: the 403 branch for a missing deviceId
does not return, so Shot.deleteEverythingForDevice is invoked afterwards in
every case, with whatever deviceId the middleware stored on the request. -/
def leaveHandler (req : LeaveReq) : List LeaveEvent :=
  (if req.deviceId.isNone then [LeaveEvent.sent403 leave403Body] else []) ++
    [LeaveEvent.deleteEverythingForDevice req.backend req.deviceId,
     LeaveEvent.redirectComplete]

/-! ### PUT /data/:id/:domain handler (server.js 636 to 714) -/

structure PutBody where
  deviceId : Option String
  head : Option String
  body : Option String
  headAttrs : Option String
  bodyAttrs : Option String
  htmlAttrs : Option String
deriving DecidableEq

/-- The external content checker (contentcheck.js is not among the given
sources); the handler is parameterized over it. -/
structure Checkers where
  checkContent : Option String → List String
  checkAttributes : Option String → String → List String

/-- The concatenation of checker results exactly as built in server.js 683. -/
def checkerErrors (ck : Checkers) (b : PutBody) : List String :=
  ck.checkContent b.head ++ ck.checkContent b.body ++
    ck.checkAttributes b.headAttrs ("head") ++ ck.checkAttributes b.bodyAttrs ("body") ++
    ck.checkAttributes b.htmlAttrs ("html")

structure PutReq where
  paramId : String
  paramDomain : String
  deviceId : Option String
  backend : String
  body : Option PutBody
deriving DecidableEq

inductive PutDataResult where
  | emptyEnd
  | jsThrow (msg : String)
  | resp (status : Nat) (body : String)
  | insertOrUpdate (deviceId backend shotId : String) (b : PutBody)
deriving DecidableEq

/-- Embedding of the PUT /data/:id/:domain handler (server.js 636 to 714).  The
failRoll flag models the testing-only artificial failure roll; a non object
body throws; then the cascade: no body deviceId gives 400, no session deviceId
gives 401, a mismatch gives 403, checker errors give 400, and only then is the
insert-or-update of the shot attempted with the session deviceId. -/
def putDataHandler (ck : Checkers) (failRoll : Bool) (req : PutReq) : PutDataResult :=
  if failRoll then PutDataResult.emptyEnd
  else match req.body with
  | none => PutDataResult.jsThrow ("Got unexpected req.body type")
  | some b =>
    let shotId := req.paramId ++ ("/") ++ req.paramDomain
    if jsFalsyStr b.deviceId then PutDataResult.resp 400 ("No deviceId in body")
    else if jsFalsyStr req.deviceId then PutDataResult.resp 401 ("Not logged in")
    else if req.deviceId ≠ b.deviceId then
      PutDataResult.resp 403 ("Cannot save a page on behalf of another user")
    else if checkerErrors ck b ≠ [] then PutDataResult.resp 400 ("Errors in submission")
    else PutDataResult.insertOrUpdate (req.deviceId.getD ("")) req.backend shotId b

/-! ### POST /api/login handler (server.js 587 to 621) and the modelled checkLogin -/

structure UserRec where
  deviceId : String
  secret : String
  abTests : List (String × String)
deriving DecidableEq

/-- Modelled from the spec: checkLogin of the missing module users.js (section
4.4 login): resolves null when the device is unknown and null when the secret
does not match; otherwise resolves the existing AB test assignment. -/
def checkLogin (db : List UserRec) (deviceId secret : String) :
    Option (List (String × String)) :=
  match db.find? (fun u => u.deviceId == deviceId) with
  | none => none
  | some u => if u.secret == secret then some u.abTests else none

structure LoginBody where
  deviceId : Option String
  secret : Option String
deriving DecidableEq

inductive LoginResult where
  | success (resp : AuthResponse)
  | jsThrow (msg : String)
  | resp (status : Nat) (body : String)
deriving DecidableEq

def noSuchUserBody : String := "\x7b\x22error\x22: \x22No such user\x22\x7d"

def invalidLoginBody : String := "\x7b\x22error\x22: \x22Invalid login\x22\x7d"

/-- Embedding of the POST /api/login handler (server.js 587 to 621), keeping
the exact truthiness cascade of the source: a truthy checkLogin result sends
the auth info, a falsy one answers 404 No such user, and the else branch
answering 401 Invalid login is reached only when the result is neither truthy
nor falsy. -/
def loginHandler (kg : Keygrip) (db : List UserRec) (body : LoginBody) : LoginResult :=
  let r := checkLogin db (body.deviceId.getD ("")) (body.secret.getD (""))
  if r.isSome then
    match sendAuthInfo kg (body.deviceId.getD ("")) (r.getD []) with
    | Except.ok a => LoginResult.success a
    | Except.error (JsError.error m) => LoginResult.jsThrow m
  else if !r.isSome then LoginResult.resp 404 noSuchUserBody
  else LoginResult.resp 401 invalidLoginBody

/-! ### POST /api/set-expiration handler (server.js 821 to 849) and parseInt -/

def jsWhitespace (c : Char) : Bool :=
  c == ' ' || c == '\t' || c == '\n' || c == '\r' ||
    c == Char.ofNat 11 || c == Char.ofNat 12

def digitsVal (l : List Char) : Option Nat :=
  let ds := l.takeWhile Char.isDigit
  if ds.isEmpty then none
  else some (ds.foldl (fun a c => a * 10 + (c.toNat - 48)) 0)

/-- Model of the JavaScript parseInt with radix ten: skip leading whitespace,
an optional sign, then the longest digit prefix; no digits give NaN, modelled
as none.  Trailing non digit characters are silently discarded. -/
def parseIntJs (s : String) : Option Int :=
  match s.toList.dropWhile jsWhitespace with
  | [] => none
  | c :: rest =>
    if c = '-' then (digitsVal rest).map (fun n => -(n : Int))
    else if c = '+' then (digitsVal rest).map (fun n => (n : Int))
    else (digitsVal (c :: rest)).map (fun n => (n : Int))

structure SetExpReq where
  deviceId : Option String
  backend : String
  bodyId : Option String
  bodyExpiration : Option String
deriving DecidableEq

inductive SetExpResult where
  | resp (status : Nat) (body : String)
  | setExpiration (backend : String) (shotId : Option String) (deviceId : String)
      (expiration : Int)
deriving DecidableEq

def badExpirationBody (raw : Option String) : String :=
  ("Error: bad expiration (") ++ raw.getD ("undefined") ++ (")")

/-- Embedding of the POST /api/set-expiration handler (server.js 821 to 849):
401 without a session, then parseInt with radix ten over the raw body value (a
missing value stringifies to undefined), the negative check first (false for
NaN), then the NaN check; a passing expiration is handed to
Shot.setExpiration. -/
def setExpirationHandler (req : SetExpReq) : SetExpResult :=
  if jsFalsyStr req.deviceId then SetExpResult.resp 401 ("Not logged in")
  else
    match parseIntJs (req.bodyExpiration.getD ("undefined")) with
    | some n =>
      if n < 0 then SetExpResult.resp 400 ("Error: negative expiration")
      else SetExpResult.setExpiration req.backend req.bodyId (req.deviceId.getD ("")) n
    | none => SetExpResult.resp 400 (badExpirationBody req.bodyExpiration)

/-! ### GET /data/:id/:domain handler (server.js 716 to 735) and a JSON value model -/

inductive Json where
  | null
  | bool (b : Bool)
  | num (n : Int)
  | str (s : String)
  | arr (elems : List Json)
  | obj (fields : List (String × Json))

mutual

def Json.stringify : Json → String
  | Json.null => ("null")
  | Json.bool true => ("true")
  | Json.bool false => ("false")
  | Json.num n => n.repr
  | Json.str s => ⟨strLit s⟩
  | Json.arr elems => ("[") ++ stringifyArr elems ++ ("]")
  | Json.obj fields => ("\x7b") ++ stringifyObj fields ++ ("\x7d")

def stringifyArr : List Json → String
  | [] => ("")
  | [x] => Json.stringify x
  | x :: xs => Json.stringify x ++ (",") ++ stringifyArr xs

def stringifyObj : List (String × Json) → String
  | [] => ("")
  | [kv] => ⟨strLit kv.1⟩ ++ (":") ++ Json.stringify kv.2
  | kv :: xs => ⟨strLit kv.1⟩ ++ (":") ++ Json.stringify kv.2 ++ (",") ++ stringifyObj xs

end

def indentChars (n : Nat) : String := ⟨List.replicate n ' '⟩

mutual

/-- Model of the pretty printing JSON.stringify with a two space indent, used
when the format query parameter is present. -/
def Json.stringifyPretty : Nat → Json → String
  | _, Json.null => ("null")
  | _, Json.bool true => ("true")
  | _, Json.bool false => ("false")
  | _, Json.num n => n.repr
  | _, Json.str s => ⟨strLit s⟩
  | _, Json.arr [] => ("[]")
  | ind, Json.arr (x :: xs) =>
    ("[\n") ++ prettyArr (ind + 2) (x :: xs) ++ ("\n") ++ indentChars ind ++ ("]")
  | _, Json.obj [] => ("\x7b\x7d")
  | ind, Json.obj (kv :: xs) =>
    ("\x7b\n") ++ prettyObj (ind + 2) (kv :: xs) ++ ("\n") ++ indentChars ind ++ ("\x7d")

def prettyArr : Nat → List Json → String
  | _, [] => ("")
  | ind, [x] => indentChars ind ++ Json.stringifyPretty ind x
  | ind, x :: xs =>
    indentChars ind ++ Json.stringifyPretty ind x ++ (",\n") ++ prettyArr ind xs

def prettyObj : Nat → List (String × Json) → String
  | _, [] => ("")
  | ind, [kv] => indentChars ind ++ ⟨strLit kv.1⟩ ++ (": ") ++ Json.stringifyPretty ind kv.2
  | ind, kv :: xs =>
    indentChars ind ++ ⟨strLit kv.1⟩ ++ (": ") ++ Json.stringifyPretty ind kv.2 ++
      (",\n") ++ prettyObj ind xs

end

/-- Embedding of the delete of the deviceId property (server.js 724): removing
a property only affects a top level object value; every other field is kept
unchanged. -/
def removeDeviceId : Json → Json
  | Json.obj fields => Json.obj (fields.filter (fun kv => !(kv.1 == ("deviceId"))))
  | v => v

structure GetDataReq where
  paramId : String
  paramDomain : String
  hasFormatQuery : Bool
deriving DecidableEq

inductive GetDataResult where
  | resp (status : Nat) (body : String)
  | jsonResp (body : String)
deriving DecidableEq

/-- Embedding of the GET /data/:id/:domain handler (server.js 716 to 735).  The
shot store maps a shot id to the stored JSON value; the JSON.parse and
JSON.stringify builtins are modelled at the level of the Json value, so parsing
a stringified value is the identity and the format query parameter selects the
pretty printer over the same cleaned value. -/
def getDataHandler (store : String → Option Json) (req : GetDataReq) : GetDataResult :=
  let shotId := req.paramId ++ ("/") ++ req.paramDomain
  match store shotId with
  | none => GetDataResult.resp 404 ("No such shot")
  | some j =>
    let cleaned := removeDeviceId j
    if req.hasFormatQuery then GetDataResult.jsonResp (Json.stringifyPretty 0 cleaned)
    else GetDataResult.jsonResp (Json.stringify cleaned)

/-! ### GET /proxy handler (server.js 87 to 98 and 1081 to 1135) -/

def proxyHeaderWhitelist : List String :=
  [("content-type"), ("content-encoding"), ("content-length"), ("last-modified"),
   ("etag"), ("date"), ("accept-ranges"), ("content-range"), ("retry-after"), ("via")]

structure ProxyReq where
  url : String
  sig : String
  headers : List (String × String)
deriving DecidableEq

inductive ProxyGateResult where
  | forbidden (status : Nat) (body : String)
  | fetch (url : String) (fwdHeaders : List (String × String))
deriving DecidableEq

def fwdHeaderNames : List String :=
  [("user-agent"), ("if-modified-since"), ("if-none-match")]

/-- Embedding of the signature gate of the GET /proxy handler (server.js 1081
to 1108): a signature that does not verify over the exact url string is
rejected with 403 before any upstream request object is created; on success the
upstream request forwards only the three conditional headers. -/
def proxyGate (kg : Keygrip) (req : ProxyReq) : ProxyGateResult :=
  if kg.verify req.url req.sig then
    ProxyGateResult.fetch req.url
      (req.headers.filter (fun kv => fwdHeaderNames.contains kv.1))
  else ProxyGateResult.forbidden 403 ("Bad signature")

def cacheControlValue : String := "public, max-age=2592000"

/-- Stand-in for Date.toUTCString of the expiry instant; the model keeps the
millisecond value computed by the handler, rendered as digits. -/
def toUTCStringModel (ms : Nat) : String := ⟨hexDigits ms⟩

/-- Embedding of the upstream response handling of the proxy handler
(server.js 1109 to 1119): only upstream headers in the whitelist are kept, then
the thirty day cache-control and expires headers are set. -/
def proxyResponseHeaders (now : Nat) (upstream : List (String × String)) :
    List (String × String) :=
  upstream.filter (fun kv => proxyHeaderWhitelist.contains kv.1) ++
    [(("cache-control"), cacheControlValue),
     (("expires"), toUTCStringModel (now + 2592000000))]

/-! ### POST /api/set-title/:id/:domain handler (server.js 755 to 779) -/

structure ShotRec where
  deviceId : String
  userTitle : Option String
deriving DecidableEq

structure SetTitleReq where
  paramId : String
  paramDomain : String
  deviceId : Option String
  bodyTitle : Option String
deriving DecidableEq

inductive SetTitleResult where
  | resp (status : Nat) (body : String)
  | updateTitle (shotId : String) (title : String)
  | caughtError (msg : String)
deriving DecidableEq

/-- Embedding of the POST /api/set-title/:id/:domain handler (server.js 755 to
779).  Shot.get is modelled from the spec (servershot.js is not among the
given sources): it resolves the shot or null.  Reading the deviceId of a null
shot throws a TypeError, which the catch block of the handler converts to the
generic Error updating title response; the updateTitle outcome stands for the
userTitle assignment, shot.update and the 200 Updated response. -/
def setTitleHandler (store : String → Option ShotRec) (req : SetTitleReq) :
    SetTitleResult :=
  let shotId := req.paramId ++ ("/") ++ req.paramDomain
  match req.bodyTitle with
  | none => SetTitleResult.resp 400 ("No title given")
  | some title =>
    if jsFalsyStr req.deviceId then SetTitleResult.resp 401 ("Not logged in")
    else match store shotId with
      | none => SetTitleResult.caughtError ("Error updating title")
      | some shot =>
        if shot.deviceId ≠ req.deviceId.getD ("") then
          SetTitleResult.resp 403 ("Not the owner")
        else SetTitleResult.updateTitle shotId title

/-! ### POST /api/unload handler (server.js 623 to 634) -/

structure UnloadReq where
  deviceId : Option String
  bodyReason : Option String
deriving DecidableEq

inductive UnloadResult where
  | jsThrow (msg : String)
  | cleared (cookieNames : List String) (status : Nat) (body : String)
deriving DecidableEq

def sessionCookieNames : List String :=
  [("user"), ("user.sig"), ("abtests"), ("abtests.sig")]

/-- Embedding of the POST /api/unload handler (server.js 623 to 634): reading
reason.replace throws a TypeError when the body carries no reason, before any
cookie is touched; otherwise the four session cookie values are erased and the
response is 200 Noted. -/
def unloadHandler (req : UnloadReq) : UnloadResult :=
  match req.bodyReason with
  | none => UnloadResult.jsThrow ("Cannot read property replace of undefined")
  | some _ => UnloadResult.cleared sessionCookieNames 200 ("Noted")

/-! ### Claim theorems -/

def kg0 : Keygrip := ⟨[("key1")]⟩

/-- C1: Credential round trip: for every keygrip with at least one key, every
deviceId matching the identity pattern and every abTests mapping, sendAuthInfo
succeeds and produces the header deviceId:sig;abTests=b64:sig, and decoding
that header with decodeAuthHeader yields exactly the same deviceId and abTests
mapping. -/
theorem C1_credential_roundtrip (k : String) (ks : List String) (d : String)
    (ab : List (String × String)) (hd : matchesIdPattern d = true) :
    sendAuthInfo ⟨k :: ks⟩ d ab =
      Except.ok ⟨d, b64EncodeJson ab, authHeaderString ⟨k :: ks⟩ d ab, 200⟩ ∧
    decodeAuthHeader ⟨k :: ks⟩ (authHeaderString ⟨k :: ks⟩ d ab) =
      Except.ok ⟨some d, some ab⟩ := by
  constructor
  · rw [sendAuthInfo, hd]
    simp
  · exact decodeAuthHeader_roundtrip k ks d ab hd

/-- C1 witness at the concrete deviceId abc123 and a one entry mapping. -/
theorem C1_credential_roundtrip_witness :
    sendAuthInfo kg0 ("abc123") [(("exp"), ("bucket1"))] =
      Except.ok ⟨("abc123"), b64EncodeJson [(("exp"), ("bucket1"))],
        authHeaderString kg0 ("abc123") [(("exp"), ("bucket1"))], 200⟩ ∧
    decodeAuthHeader kg0 (authHeaderString kg0 ("abc123") [(("exp"), ("bucket1"))]) =
      Except.ok ⟨some ("abc123"), some [(("exp"), ("bucket1"))]⟩ :=
  C1_credential_roundtrip ("key1") [] ("abc123") [(("exp"), ("bucket1"))] (by decide)

/-- Decidable statement of the failing cases of the credential decoder: the
header does not match the regex, or one of the two signatures fails keygrip
verification. -/
def failsClosedCheck (kg : Keygrip) (h : String) : Bool :=
  match matchAuthHeader h with
  | none => true
  | some (d, s1, e, s2) => !(kg.verify d s1 && kg.verify e s2)

theorem failsClosedCheck_sound (kg : Keygrip) (h : String)
    (hc : failsClosedCheck kg h = true) :
    ∀ d s1 e s2, matchAuthHeader h = some (d, s1, e, s2) →
      kg.verify d s1 = false ∨ kg.verify e s2 = false := by
  intro d s1 e s2 hm
  rw [failsClosedCheck, hm] at hc
  simp only [Bool.not_eq_eq_eq_not, Bool.not_true, Bool.and_eq_false_imp] at hc
  by_cases hv : kg.verify d s1 = true
  · exact Or.inr (hc hv)
  · exact Or.inl (Bool.not_eq_true _ ▸ hv)

/-- C2: decoding fails closed: every header string that is structurally
malformed (the regex does not match) or whose deviceId signature or abTests
signature fails keygrip verification yields the empty credential, with no
deviceId and no abTests, and no exception is thrown. -/
theorem C2_decode_fails_closed (kg : Keygrip) (h : String)
    (hbad : ∀ d s1 e s2, matchAuthHeader h = some (d, s1, e, s2) →
      kg.verify d s1 = false ∨ kg.verify e s2 = false) :
    decodeAuthHeader kg h = Except.ok AuthInfo.empty := by
  cases hm : matchAuthHeader h with
  | none => rw [decodeAuthHeader, hm]
  | some q =>
    obtain ⟨d, s1, e, s2⟩ := q
    rw [decodeAuthHeader, hm]
    rcases hbad d s1 e s2 hm with hv | hv
    · simp [hv]
    · simp [hv]

def flipSigChar (c : Char) : Char := if c = '0' then '1' else '0'

/-- Tamper the byte right after the first colon of the header, which is the
first character of the deviceId signature. -/
def tamperAfterColon : List Char → List Char
  | [] => []
  | c :: rest =>
    if c = colonChar then
      match rest with
      | [] => [colonChar]
      | d :: rest2 => colonChar :: flipSigChar d :: rest2
    else c :: tamperAfterColon rest

def c2TamperedHeader : String :=
  ⟨tamperAfterColon (authHeaderString kg0 ("abc123") [(("exp"), ("bucket1"))]).toList⟩

/-- C2 witness: an encoded credential whose deviceId signature has one byte
tampered still matches the regex, and decoding it yields the empty
credential. -/
theorem C2_decode_fails_closed_witness :
    decodeAuthHeader kg0 c2TamperedHeader = Except.ok AuthInfo.empty ∧
    (matchAuthHeader c2TamperedHeader).isSome = true :=
  ⟨C2_decode_fails_closed kg0 c2TamperedHeader
      (failsClosedCheck_sound kg0 c2TamperedHeader (by decide)),
   by decide⟩

/-- C3: the PUT /data/:id/:domain handler enforces the body and session checks
before any mutation (with the testing failure roll disabled): a falsy body
deviceId yields 400, then a missing session deviceId yields 401, then a body
deviceId different from the session deviceId yields 403, then checker errors
yield 400; the insert-or-update is reached only when the session deviceId
equals the body deviceId and validation passes, and it runs under the session
deviceId. -/
theorem C3_putData_gating (ck : Checkers) (req : PutReq) :
    (∀ b, req.body = some b → jsFalsyStr b.deviceId = true →
      putDataHandler ck false req = PutDataResult.resp 400 ("No deviceId in body")) ∧
    (∀ b, req.body = some b → jsFalsyStr b.deviceId = false →
      jsFalsyStr req.deviceId = true →
      putDataHandler ck false req = PutDataResult.resp 401 ("Not logged in")) ∧
    (∀ b, req.body = some b → jsFalsyStr b.deviceId = false →
      jsFalsyStr req.deviceId = false → req.deviceId ≠ b.deviceId →
      putDataHandler ck false req =
        PutDataResult.resp 403 ("Cannot save a page on behalf of another user")) ∧
    (∀ b, req.body = some b → jsFalsyStr b.deviceId = false →
      jsFalsyStr req.deviceId = false → req.deviceId = b.deviceId →
      checkerErrors ck b ≠ [] →
      putDataHandler ck false req = PutDataResult.resp 400 ("Errors in submission")) ∧
    (∀ d bk sid b, putDataHandler ck false req = PutDataResult.insertOrUpdate d bk sid b →
      req.deviceId = some d ∧ b.deviceId = some d ∧ checkerErrors ck b = []) := by
  refine ⟨?_, ?_, ?_, ?_, ?_⟩
  · intro b hb h1
    rw [putDataHandler, if_neg (by simp), hb]
    simp only [h1, if_pos rfl, if_true]
  · intro b hb h1 h2
    rw [putDataHandler, if_neg (by simp), hb]
    simp only [h1, h2, Bool.false_eq_true, if_false, if_pos rfl, if_true]
  · intro b hb h1 h2 h3
    rw [putDataHandler, if_neg (by simp), hb]
    simp only [h1, h2, Bool.false_eq_true, if_false, if_pos h3, if_true]
  · intro b hb h1 h2 h3 h4
    rw [putDataHandler, if_neg (by simp), hb]
    simp only [h1, h2, Bool.false_eq_true, if_false, if_pos h4, if_true]
    rw [if_neg (fun hcontra => hcontra h3)]
  · intro d bk sid b heq
    rw [putDataHandler, if_neg (by simp)] at heq
    cases hbody : req.body with
    | none => rw [hbody] at heq; cases heq
    | some b2 =>
      rw [hbody] at heq
      simp only at heq
      split_ifs at heq with h1 h2 h3 h4
      cases heq
      rw [not_not] at h3 h4
      cases hdev : req.deviceId with
      | none =>
        rw [hdev] at h2
        exact absurd rfl h2
      | some s =>
        refine ⟨by simp [hdev], ?_, h4⟩
        rw [← h3]
        simp [hdev]

def trivialCheckers : Checkers := ⟨fun _ => [], fun _ _ => []⟩

def putBody0 : PutBody := ⟨some ("dev1"), none, none, none, none, none⟩

/-- C3 witness: with a body that carries no deviceId the handler answers 400,
and with matching session and body deviceIds and passing checkers the handler
reaches the insert-or-update under the session deviceId. -/
theorem C3_putData_gating_witness :
    putDataHandler trivialCheckers false
        ⟨("id1"), ("example.com"), some ("dev1"), ("https://b"),
         some ⟨none, none, none, none, none, none⟩⟩ =
      PutDataResult.resp 400 ("No deviceId in body") ∧
    putDataHandler trivialCheckers false
        ⟨("id1"), ("example.com"), none, ("https://b"), some putBody0⟩ =
      PutDataResult.resp 401 ("Not logged in") ∧
    putDataHandler trivialCheckers false
        ⟨("id1"), ("example.com"), some ("dev2"), ("https://b"), some putBody0⟩ =
      PutDataResult.resp 403 ("Cannot save a page on behalf of another user") :=
  ⟨(C3_putData_gating trivialCheckers _).1 _ rfl (by decide),
   (C3_putData_gating trivialCheckers _).2.1 _ rfl (by decide) (by decide),
   (C3_putData_gating trivialCheckers _).2.2.1 _ rfl (by decide) (by decide) (by decide)⟩

def textKeys0 : List String := [("magickey1")]

def magicReq : ReqHeaders := ⟨none, some ("magickey1"), some ("evil-device"),
  none, none, none, none⟩

/-- C4 counterexample: the claim that the deviceId used for authorization is
always the one recovered from a verified signed credential is false: a request
carrying the magic auth header equal to a server text key gets its deviceId
taken directly from the client controlled x-device-id header, while the
credential middleware alone recovers no deviceId at all. -/
theorem C4_counterexample :
    ¬ (∀ (kg : Keygrip) (textKeys : List String) (req : ReqHeaders) (r : Option String),
        computeDeviceId kg textKeys req = Except.ok r →
        credDeviceId kg req = Except.ok r) := by
  intro hclaim
  have h1 : computeDeviceId kg0 textKeys0 magicReq = Except.ok (some ("evil-device")) := rfl
  have h2 := hclaim kg0 textKeys0 magicReq (some ("evil-device")) h1
  have h3 : credDeviceId kg0 magicReq = Except.ok none := rfl
  rw [h3] at h2
  cases h2

/-- C4 amended: the deviceId used for authorization equals the one recovered
from the verified signed credential except when the request carries an
x-magic-auth header equal to one of the server text keys, in which case it is
taken from the x-device-id header; and POST /leave passes the middleware
deviceId to Shot.deleteEverythingForDevice, invoking it even when no deviceId
is present because the 403 branch does not return. -/
theorem C4_deviceId_provenance_amended :
    (∀ (kg : Keygrip) (textKeys : List String) (req : ReqHeaders) (r : Option String),
        computeDeviceId kg textKeys req = Except.ok r →
        credDeviceId kg req = Except.ok r ∨
          ∃ mk, req.magicAuth = some mk ∧ textKeys.contains mk = true ∧
            r = req.xDeviceId) ∧
    (∀ req : LeaveReq,
        LeaveEvent.deleteEverythingForDevice req.backend req.deviceId ∈ leaveHandler req ∧
        (req.deviceId = none → LeaveEvent.sent403 leave403Body ∈ leaveHandler req)) := by
  constructor
  · intro kg textKeys req r hr
    rw [computeDeviceId] at hr
    cases hc : credDeviceId kg req with
    | error e =>
      rw [hc] at hr
      simp only [Except.map] at hr
      cases hr
    | ok d =>
      rw [hc] at hr
      simp only [Except.map, Except.ok.injEq] at hr
      cases hmag : req.magicAuth with
      | none =>
        rw [hmag] at hr
        simp only at hr
        exact Or.inl (congrArg Except.ok hr)
      | some mk =>
        rw [hmag] at hr
        simp only at hr
        by_cases hmem : textKeys.contains mk = true
        · rw [if_pos hmem] at hr
          exact Or.inr ⟨mk, rfl, hmem, hr.symm⟩
        · rw [if_neg hmem] at hr
          exact Or.inl (congrArg Except.ok hr)
  · intro req
    constructor
    · rw [leaveHandler]
      simp
    · intro hnone
      rw [leaveHandler, hnone]
      simp

/-- C4 witness: the amended provenance applied to the magic auth request, and
the leave handler facts at a request with no session deviceId. -/
theorem C4_deviceId_provenance_amended_witness :
    (credDeviceId kg0 magicReq = Except.ok (some ("evil-device")) ∨
      ∃ mk, magicReq.magicAuth = some mk ∧ textKeys0.contains mk = true ∧
        some ("evil-device") = magicReq.xDeviceId) ∧
    (LeaveEvent.deleteEverythingForDevice ("https://b") none ∈
      leaveHandler ⟨none, ("https://b")⟩ ∧
     LeaveEvent.sent403 leave403Body ∈ leaveHandler ⟨none, ("https://b")⟩) :=
  ⟨C4_deviceId_provenance_amended.1 kg0 textKeys0 magicReq (some ("evil-device")) rfl,
   (C4_deviceId_provenance_amended.2 ⟨none, ("https://b")⟩).1,
   (C4_deviceId_provenance_amended.2 ⟨none, ("https://b")⟩).2 rfl⟩

def usersDb0 : List UserRec := [⟨("dev1"), ("s3cr3t"), []⟩]

/-- C5: evaluated on a database holding device dev1 with secret s3cr3t, a
login attempt for dev1 with the wrong secret is answered with 404 No such
user: the 401 Invalid login response of the source is in an unreachable else
branch, because every falsy checkLogin result is captured by the 404 branch. -/
theorem C5_login_wrong_secret :
    loginHandler kg0 usersDb0 ⟨some ("dev1"), some ("wrong")⟩ =
      LoginResult.resp 404 noSuchUserBody := by decide

/-- Development note for C5: the 401 branch of the login handler is dead code
under the modelled checkLogin, whatever the database and request. -/
theorem login_never_invalid (kg : Keygrip) (db : List UserRec) (b : LoginBody)
    (s : String) : loginHandler kg db b ≠ LoginResult.resp 401 s := by
  intro hcontra
  rw [loginHandler] at hcontra
  by_cases hr : (checkLogin db (b.deviceId.getD ("")) (b.secret.getD (""))).isSome
  · rw [if_pos hr] at hcontra
    cases hsend : sendAuthInfo kg (b.deviceId.getD (""))
        ((checkLogin db (b.deviceId.getD ("")) (b.secret.getD (""))).getD []) with
    | ok a => rw [hsend] at hcontra; cases hcontra
    | error e =>
      rw [hsend] at hcontra
      cases e with
      | error m => cases hcontra
  · rw [if_neg hr, if_pos (by simpa using hr)] at hcontra
    cases hcontra

def setExpReq7abc : SetExpReq :=
  ⟨some ("dev1"), ("https://b"), some ("shot1"), some ("7abc")⟩

/-- C6 counterexample: the expiration input 7abc is not a non negative integer,
yet the handler does not reject it with 400: parseInt silently truncates it to
7, which is passed to Shot.setExpiration. -/
theorem C6_counterexample :
    setExpirationHandler setExpReq7abc =
      SetExpResult.setExpiration ("https://b") (some ("shot1")) ("dev1") 7 := by decide

/-- C6 amended: without a session the handler answers 401; an expiration whose
parseInt with radix ten is NaN is rejected with 400 and no store call is made;
a parsed negative value is rejected with 400 and no store call is made; any
parsed non negative value, including the truncation of inputs such as 7abc, is
passed to Shot.setExpiration under the session deviceId.  In particular abc
and -1 are rejected and 0 and every positive integer accepted. -/
theorem C6_expiration_validation (req : SetExpReq) :
    (jsFalsyStr req.deviceId = true →
      setExpirationHandler req = SetExpResult.resp 401 ("Not logged in")) ∧
    (jsFalsyStr req.deviceId = false →
      parseIntJs (req.bodyExpiration.getD ("undefined")) = none →
      setExpirationHandler req =
        SetExpResult.resp 400 (badExpirationBody req.bodyExpiration)) ∧
    (∀ n : Int, jsFalsyStr req.deviceId = false →
      parseIntJs (req.bodyExpiration.getD ("undefined")) = some n → n < 0 →
      setExpirationHandler req = SetExpResult.resp 400 ("Error: negative expiration")) ∧
    (∀ n : Int, jsFalsyStr req.deviceId = false →
      parseIntJs (req.bodyExpiration.getD ("undefined")) = some n → 0 ≤ n →
      setExpirationHandler req =
        SetExpResult.setExpiration req.backend req.bodyId (req.deviceId.getD ("")) n) := by
  refine ⟨?_, ?_, ?_, ?_⟩
  · intro h1
    rw [setExpirationHandler]
    simp only [h1, if_pos rfl, if_true]
  · intro h1 h2
    rw [setExpirationHandler]
    simp only [h1, Bool.false_eq_true, if_false, h2]
  · intro n h1 h2 h3
    rw [setExpirationHandler]
    simp only [h1, Bool.false_eq_true, if_false, h2]
    rw [if_pos h3]
  · intro n h1 h2 h3
    rw [setExpirationHandler]
    simp only [h1, Bool.false_eq_true, if_false, h2]
    rw [if_neg (by omega)]

/-- C6 witness: abc is rejected with 400, -1 is rejected with 400, and 0 is
accepted and passed to Shot.setExpiration. -/
theorem C6_expiration_validation_witness :
    setExpirationHandler ⟨some ("dev1"), ("https://b"), some ("shot1"), some ("abc")⟩ =
      SetExpResult.resp 400 (badExpirationBody (some ("abc"))) ∧
    setExpirationHandler ⟨some ("dev1"), ("https://b"), some ("shot1"), some ("-1")⟩ =
      SetExpResult.resp 400 ("Error: negative expiration") ∧
    setExpirationHandler ⟨some ("dev1"), ("https://b"), some ("shot1"), some ("0")⟩ =
      SetExpResult.setExpiration ("https://b") (some ("shot1")) ("dev1") 0 :=
  ⟨(C6_expiration_validation _).2.1 (by decide) (by decide),
   (C6_expiration_validation _).2.2.1 (-1) (by decide) (by decide) (by decide),
   (C6_expiration_validation _).2.2.2 0 (by decide) (by decide) (by decide)⟩

/-- The top level fields of a JSON value (empty for non objects). -/
def topFields : Json → List (String × Json)
  | Json.obj fields => fields
  | _ => []

/-- C7: GET /data/:id/:domain ignores the caller identity entirely (the
handler takes no identity input); a missing shot yields 404; an existing shot
is answered with a serialization of the stored value with the top level
deviceId field removed, where the format query parameter only selects the
pretty printer over that same cleaned value; the cleaned value has no deviceId
field and keeps every other field unchanged. -/
theorem C7_get_data_redaction (store : String → Option Json) (req : GetDataReq) :
    (store (req.paramId ++ ("/") ++ req.paramDomain) = none →
      getDataHandler store req = GetDataResult.resp 404 ("No such shot")) ∧
    (∀ j, store (req.paramId ++ ("/") ++ req.paramDomain) = some j →
      getDataHandler store req = GetDataResult.jsonResp
        (if req.hasFormatQuery then Json.stringifyPretty 0 (removeDeviceId j)
         else Json.stringify (removeDeviceId j))) ∧
    (∀ j v, ((("deviceId"), v) ∈ topFields (removeDeviceId j)) → False) ∧
    (∀ j k v, k ≠ ("deviceId") →
      (((k, v) ∈ topFields (removeDeviceId j)) ↔ ((k, v) ∈ topFields j))) := by
  refine ⟨?_, ?_, ?_, ?_⟩
  · intro hmiss
    rw [getDataHandler]
    simp only [hmiss]
  · intro j hj
    rw [getDataHandler]
    simp only [hj]
    by_cases hf : req.hasFormatQuery <;> simp [hf]
  · intro j v hmem
    cases j with
    | obj fields =>
      rw [removeDeviceId, topFields] at hmem
      rw [List.mem_filter] at hmem
      simp at hmem
    | null => cases hmem
    | bool b => cases hmem
    | num n => cases hmem
    | str s => cases hmem
    | arr elems => cases hmem
  · intro j k v hk
    cases j with
    | obj fields =>
      rw [removeDeviceId, topFields, topFields]
      rw [List.mem_filter]
      simp [hk]
    | null => simp [removeDeviceId]
    | bool b => simp [removeDeviceId]
    | num n => simp [removeDeviceId]
    | str s => simp [removeDeviceId]
    | arr elems => simp [removeDeviceId]

def shotJson0 : Json :=
  Json.obj [(("deviceId"), Json.str ("dev1")), (("url"), Json.str ("https://x"))]

def store0 : String → Option Json := fun _ => some shotJson0

/-- C7 witness: reading the stored shot value returns its serialization with
the deviceId field removed, and the deviceId field is absent from the cleaned
value while the url field survives. -/
theorem C7_get_data_redaction_witness :
    getDataHandler store0 ⟨("id1"), ("example.com"), false⟩ =
      GetDataResult.jsonResp (Json.stringify (removeDeviceId shotJson0)) ∧
    ((((("deviceId"), Json.str ("dev1")) ∈ topFields (removeDeviceId shotJson0)) → False)) ∧
    (((("url"), Json.str ("https://x")) ∈ topFields (removeDeviceId shotJson0)) ↔
      ((("url"), Json.str ("https://x")) ∈ topFields shotJson0)) :=
  ⟨by
    have h := (C7_get_data_redaction store0 ⟨("id1"), ("example.com"), false⟩).2.1
      shotJson0 rfl
    simpa using h,
   (C7_get_data_redaction store0 ⟨("id1"), ("example.com"), false⟩).2.2.1 shotJson0 _,
   (C7_get_data_redaction store0 ⟨("id1"), ("example.com"), false⟩).2.2.2 shotJson0
     (("url")) (Json.str ("https://x")) (by decide)⟩

/-- C8: the proxy rejects a failing signature over the exact url string with
403 before any upstream fetch (the gate produces no fetch request in that
case); with a verifying signature the upstream fetch is issued, and the
response headers consist exactly of the whitelisted upstream headers plus the
forced thirty day cache-control and expires headers: every emitted header is
either a whitelisted upstream header or one of the two forced ones, every
whitelisted upstream header is kept, and every non whitelisted upstream header
name other than the two forced ones is dropped. -/
theorem C8_proxy_gating (kg : Keygrip) (req : ProxyReq) (now : Nat)
    (upstream : List (String × String)) :
    (kg.verify req.url req.sig = false →
      proxyGate kg req = ProxyGateResult.forbidden 403 ("Bad signature")) ∧
    (kg.verify req.url req.sig = true →
      proxyGate kg req = ProxyGateResult.fetch req.url
        (req.headers.filter (fun kv => fwdHeaderNames.contains kv.1))) ∧
    (∀ kv ∈ proxyResponseHeaders now upstream,
      (kv ∈ upstream ∧ proxyHeaderWhitelist.contains kv.1 = true) ∨
      kv = (("cache-control"), cacheControlValue) ∨
      kv = (("expires"), toUTCStringModel (now + 2592000000))) ∧
    (∀ kv ∈ upstream, proxyHeaderWhitelist.contains kv.1 = true →
      kv ∈ proxyResponseHeaders now upstream) ∧
    ((("cache-control"), cacheControlValue) ∈ proxyResponseHeaders now upstream) ∧
    ((("expires"), toUTCStringModel (now + 2592000000)) ∈
      proxyResponseHeaders now upstream) := by
  refine ⟨?_, ?_, ?_, ?_, ?_, ?_⟩
  · intro hv
    rw [proxyGate, hv]
    rfl
  · intro hv
    rw [proxyGate, hv]
    rfl
  · intro kv hkv
    rw [proxyResponseHeaders] at hkv
    rw [List.mem_append] at hkv
    rcases hkv with hkv | hkv
    · rw [List.mem_filter] at hkv
      exact Or.inl hkv
    · simp only [List.mem_cons, List.not_mem_nil, or_false] at hkv
      rcases hkv with hkv | hkv
      · exact Or.inr (Or.inl hkv)
      · exact Or.inr (Or.inr hkv)
  · intro kv hkv hwl
    rw [proxyResponseHeaders, List.mem_append, List.mem_filter]
    exact Or.inl ⟨hkv, hwl⟩
  · rw [proxyResponseHeaders, List.mem_append]
    simp
  · rw [proxyResponseHeaders, List.mem_append]
    simp

def proxyReqBadSig : ProxyReq := ⟨("https://u"), ("deadbeef"), []⟩

def upstream0 : List (String × String) :=
  [(("content-type"), ("image/png")), (("set-cookie"), ("evil=1"))]

/-- C8 witness: a wrong signature is rejected, a whitelisted upstream header
survives, the non whitelisted set-cookie header is dropped, and the forced
cache header is present. -/
theorem C8_proxy_gating_witness :
    proxyGate kg0 proxyReqBadSig = ProxyGateResult.forbidden 403 ("Bad signature") ∧
    ((("content-type"), ("image/png")) ∈ proxyResponseHeaders 0 upstream0) ∧
    ((("cache-control"), cacheControlValue) ∈ proxyResponseHeaders 0 upstream0) ∧
    (((("set-cookie"), ("evil=1")) ∈ proxyResponseHeaders 0 upstream0) → False) :=
  ⟨(C8_proxy_gating kg0 proxyReqBadSig 0 upstream0).1 (by decide),
   (C8_proxy_gating kg0 proxyReqBadSig 0 upstream0).2.2.2.1 _ (by decide) (by decide),
   (C8_proxy_gating kg0 proxyReqBadSig 0 upstream0).2.2.2.2.1,
   fun hmem => by
    rcases (C8_proxy_gating kg0 proxyReqBadSig 0 upstream0).2.2.1 _ hmem with h | h | h
    · exact absurd h.2 (by decide)
    · exact absurd h (by decide)
    · exact absurd h (by decide)⟩

def emptyShotStore : String → Option ShotRec := fun _ => none

/-- C9 counterexample: a set-title request naming a shot that does not exist
does not get a not found outcome: Shot.get resolves null, reading deviceId of
null throws a TypeError, and the catch block answers the generic Error
updating title response. -/
theorem C9_counterexample :
    setTitleHandler emptyShotStore ⟨("id1"), ("example.com"), some ("dev1"), some ("t")⟩ =
      SetTitleResult.caughtError ("Error updating title") := by decide

/-- C9 amended: a body without a title yields 400; then a request without a
session yields 401; a request naming a shot that does not exist is answered
with the generic caught error response, not a distinct not found outcome; a
session deviceId different from the shot owner yields 403 with no title
update; only the owner reaches the title update and 200. -/
theorem C9_set_title (store : String → Option ShotRec) (req : SetTitleReq) :
    (req.bodyTitle = none →
      setTitleHandler store req = SetTitleResult.resp 400 ("No title given")) ∧
    (∀ t, req.bodyTitle = some t → jsFalsyStr req.deviceId = true →
      setTitleHandler store req = SetTitleResult.resp 401 ("Not logged in")) ∧
    (∀ t, req.bodyTitle = some t → jsFalsyStr req.deviceId = false →
      store (req.paramId ++ ("/") ++ req.paramDomain) = none →
      setTitleHandler store req = SetTitleResult.caughtError ("Error updating title")) ∧
    (∀ t shot, req.bodyTitle = some t → jsFalsyStr req.deviceId = false →
      store (req.paramId ++ ("/") ++ req.paramDomain) = some shot →
      shot.deviceId ≠ req.deviceId.getD ("") →
      setTitleHandler store req = SetTitleResult.resp 403 ("Not the owner")) ∧
    (∀ t shot, req.bodyTitle = some t → jsFalsyStr req.deviceId = false →
      store (req.paramId ++ ("/") ++ req.paramDomain) = some shot →
      shot.deviceId = req.deviceId.getD ("") →
      setTitleHandler store req =
        SetTitleResult.updateTitle (req.paramId ++ ("/") ++ req.paramDomain) t) := by
  refine ⟨?_, ?_, ?_, ?_, ?_⟩
  · intro ht
    rw [setTitleHandler]
    simp only [ht]
  · intro t ht h1
    rw [setTitleHandler]
    simp only [ht, h1, if_pos rfl, if_true]
  · intro t ht h1 hmiss
    rw [setTitleHandler]
    simp only [ht, h1, Bool.false_eq_true, if_false, hmiss]
  · intro t shot ht h1 hshot hne
    rw [setTitleHandler]
    simp only [ht, h1, Bool.false_eq_true, if_false, hshot]
    rw [if_pos hne]
  · intro t shot ht h1 hshot heq
    rw [setTitleHandler]
    simp only [ht, h1, Bool.false_eq_true, if_false, hshot]
    rw [if_neg (fun hcontra => hcontra heq)]

def shotStore1 : String → Option ShotRec := fun _ => some ⟨("dev1"), none⟩

/-- C9 witness: a missing title is rejected with 400, a non owner is rejected
with 403, and the owner reaches the title update. -/
theorem C9_set_title_witness :
    setTitleHandler shotStore1 ⟨("id1"), ("example.com"), some ("dev1"), none⟩ =
      SetTitleResult.resp 400 ("No title given") ∧
    setTitleHandler shotStore1 ⟨("id1"), ("example.com"), some ("dev2"), some ("t")⟩ =
      SetTitleResult.resp 403 ("Not the owner") ∧
    setTitleHandler shotStore1 ⟨("id1"), ("example.com"), some ("dev1"), some ("t")⟩ =
      SetTitleResult.updateTitle (("id1") ++ ("/") ++ ("example.com")) ("t") :=
  ⟨(C9_set_title shotStore1 _).1 rfl,
   (C9_set_title shotStore1 _).2.2.2.1 ("t") ⟨("dev1"), none⟩ rfl (by decide) rfl
     (by decide),
   (C9_set_title shotStore1 _).2.2.2.2 ("t") ⟨("dev1"), none⟩ rfl (by decide) rfl
     (by decide)⟩

/-- C10: POST /api/unload succeeds with 200 and clears exactly the four
session cookie values user, user.sig, abtests and abtests.sig when the body
contains a reason string; when the body lacks a reason the handler throws
while reading it, before any cookie is touched, so the session cookies are
left unchanged. -/
theorem C10_unload (req : UnloadReq) :
    (req.bodyReason = none →
      unloadHandler req =
        UnloadResult.jsThrow ("Cannot read property replace of undefined")) ∧
    (∀ r, req.bodyReason = some r →
      unloadHandler req = UnloadResult.cleared sessionCookieNames 200 ("Noted")) := by
  constructor
  · intro hr
    rw [unloadHandler, hr]
  · intro r hr
    rw [unloadHandler, hr]

/-- C10 witness: a body with a reason clears the four cookies with 200, and a
body without one throws. -/
theorem C10_unload_witness :
    unloadHandler ⟨some ("dev1"), some ("navigation")⟩ =
      UnloadResult.cleared sessionCookieNames 200 ("Noted") ∧
    unloadHandler ⟨some ("dev1"), none⟩ =
      UnloadResult.jsThrow ("Cannot read property replace of undefined") :=
  ⟨(C10_unload _).2 ("navigation") rfl, (C10_unload _).1 rfl⟩
